import Mathlib

/-!
Status tracker and suspend/recover store of light-flow-plugins.

A shallow embedding of `orm/save.go` (status rows of flows, processes and
steps) and `suspend.go` (checkpoints and recover records), together with the
part of gorm these files call.

The database is a value: every table is the list of its rows, and strings are
compared as they are.  A statement takes the table and returns the error it
reports together with the table afterwards.  What the Go code cannot decide
by itself is passed in:

* `fault`  the error the driver reports for one statement (`none`: the
  statement reaches the table and is carried out);
* `now`    the reading of `time.Now()` during the call; the readings taken
  within one call are not told apart.

One caller at a time is modelled; a transaction keeps its rows to itself
until it is committed, and a commit that reports an error publishes nothing.
-/

/-- Instants of `time.Time`, counted in clock ticks. -/
abbrev Time := Nat

/-! ## The part of gorm that the plugin calls -/

namespace gorm

/-- Errors a statement can report. -/
inductive Error where
  /-- `First` found no row. -/
  | ErrRecordNotFound
  /-- `Create` was handed a slice of length zero. -/
  | ErrEmptySlice
  /-- `Commit` or a write on a handle that holds no open transaction. -/
  | ErrInvalidTransaction
  /-- the table already holds a row with this primary key. -/
  | ErrDuplicatedKey
  /-- any other failure reported by the driver (connection lost, lock timeout, ...). -/
  | driver (code : Nat)
  deriving DecidableEq, Repr

/-- `db.Create(&row)`: one INSERT.  The primary key is unique, so a row whose
key is already in the table is refused; a refused or failed statement leaves
the table as it was. -/
def Create {α : Type} (key : α → String) (fault : Option Error)
    (table : List α) (row : α) : Option Error × List α :=
  match fault with
  | some e => (some e, table)
  | none =>
    if table.any (fun r => key r == key row) then (some Error.ErrDuplicatedKey, table)
    else (none, table ++ [row])

/-- True when some key occurs twice in the list. -/
def hasDuplicate : List String → Bool
  | [] => false
  | k :: ks => ks.contains k || hasDuplicate ks

/-- `db.Create(&rows)`: a single multi-row INSERT.  gorm refuses a slice of
length zero with `ErrEmptySlice` before anything is sent; the statement is
refused as a whole when one of its keys is already taken. -/
def CreateInBatch {α : Type} (key : α → String) (fault : Option Error)
    (table : List α) (rows : List α) : Option Error × List α :=
  if rows.isEmpty then (some Error.ErrEmptySlice, table)
  else
    match fault with
    | some e => (some e, table)
    | none =>
      if hasDuplicate (rows.map key) || rows.any (fun r => table.any (fun t => key t == key r)) then
        (some Error.ErrDuplicatedKey, table)
      else (none, table ++ rows)

/-- `db.Model(..).Where(cond).Updates(..)` and `.Update(..)`: every row that
satisfies the condition is rewritten by `assign`, all others stay.  Matching
no row is not an error. -/
def Update {α : Type} (cond : α → Bool) (assign : α → α) (fault : Option Error)
    (table : List α) : Option Error × List α :=
  match fault with
  | some e => (some e, table)
  | none => (none, table.map (fun r => if cond r then assign r else r))

/-- Order of primary keys used by `ORDER BY`: code points, left to right. -/
def keyLe : List Nat → List Nat → Bool
  | [], _ => true
  | _ :: _, [] => false
  | a :: as, b :: bs => decide (a < b) || (a == b && keyLe as bs)

/-- Row with the least primary key among `rows` (`ORDER BY key LIMIT 1`). -/
def leastByKey {α : Type} (key : α → String) : List α → Option α
  | [] => none
  | r :: rs =>
    match leastByKey key rs with
    | none => some r
    | some m =>
      if keyLe ((key r).data.map Char.toNat) ((key m).data.map Char.toNat) then some r else some m

/-- `db.Where(cond).First(&dest)`: the matching row with the least primary
key; `ErrRecordNotFound` when no row matches, and `dest` keeps its zero value. -/
def First {α : Type} (key : α → String) (zero : α) (cond : α → Bool)
    (fault : Option Error) (table : List α) : α × Option Error :=
  match fault with
  | some e => (zero, some e)
  | none =>
    match leastByKey key (table.filter cond) with
    | some r => (r, none)
    | none => (zero, some Error.ErrRecordNotFound)

/-- `db.Where(cond).Find(&dest)`: all matching rows; no order is requested,
the rows come as the table holds them. -/
def Find {α : Type} (cond : α → Bool) (fault : Option Error)
    (table : List α) : List α × Option Error :=
  match fault with
  | some e => ([], some e)
  | none => (table.filter cond, none)

end gorm

/-! ## The engine's snapshots (package `flow`) -/

namespace flow

/-- Modelled from the spec: the engine's snapshot of a flow (interface
`flow.WorkFlow`, declared in the engine and not in these sources): identifier,
name, success flag, suspended flag (`Has(flow.Suspend)`), start time and
nullable end time. -/
structure WorkFlow where
  ID : String
  Name : String
  Success : Bool
  HasSuspend : Bool
  StartTime : Time
  EndTime : Option Time
  deriving DecidableEq, Repr

/-- Modelled from the spec: the engine's snapshot of a process (interface
`flow.Process`): as a flow, with the identifier of the owning flow. -/
structure Process where
  ID : String
  Name : String
  FlowID : String
  Success : Bool
  HasSuspend : Bool
  StartTime : Time
  EndTime : Option Time
  deriving DecidableEq, Repr

/-- Modelled from the spec: the engine's snapshot of a step (interface
`flow.Step`): as a process, with the identifier of the owning process. -/
structure Step where
  ID : String
  Name : String
  ProcessID : String
  FlowID : String
  Success : Bool
  HasSuspend : Bool
  StartTime : Time
  EndTime : Option Time
  deriving DecidableEq, Repr

/-- Modelled from the spec: the engine's checkpoint value object (interface
`flow.CheckPoint`): identifier, logical-unit id, name, recover-id, parent and
root unit ids, scope tag and the opaque snapshot bytes. -/
structure CheckPoint where
  Id : String
  Uid : String
  Name : String
  RecoverId : String
  ParentUid : String
  RootUid : String
  Scope : Nat
  Snapshot : List Nat
  deriving DecidableEq, Repr

/-- Modelled from the spec: the engine's recover record value object
(interface `flow.RecoverRecord`): root-unit id, recover-id, status and name. -/
structure RecoverRecord where
  RootUid : String
  RecoverId : String
  Status : Nat
  Name : String
  deriving DecidableEq, Repr

/-- Modelled from the spec: recover-record status `Idle` is 0 (constant
`flow.RecoverIdle` of the engine). -/
def RecoverIdle : Nat := 0

/-- Modelled from the spec: recover-record status `Consumed` is 1. -/
def RecoverConsumed : Nat := 1

end flow

/-! ## `orm/save.go` -/

namespace orm

/-- Status `Begin`, the first value of the `iota` block. -/
def Begin : Int := 0
/-- Status `Suspend`. -/
def Suspend : Int := 1
/-- Status `Success`. -/
def Success : Int := 2
/-- Status `Failure`. -/
def Failure : Int := 3

/-- Row of table `steps`. -/
structure Step where
  Id : String
  Name : String
  Status : Int
  ProcId : String
  FlowId : String
  CreatedAt : Option Time
  UpdatedAt : Option Time
  FinishedAt : Option Time
  deriving DecidableEq, Repr

/-- Row of table `processes`. -/
structure Process where
  Id : String
  Name : String
  Status : Int
  FlowId : String
  CreatedAt : Option Time
  UpdatedAt : Option Time
  FinishedAt : Option Time
  deriving DecidableEq, Repr

/-- Row of table `flows`. -/
structure Flow where
  Id : String
  Name : String
  Status : Int
  CreatedAt : Option Time
  UpdatedAt : Option Time
  FinishedAt : Option Time
  deriving DecidableEq, Repr

/-- The database behind `persistence`: its three tables. -/
structure persistence where
  flows : List Flow
  processes : List Process
  steps : List Step
  deriving DecidableEq, Repr

/-- `Updates(foo)` on one row of `flows`: gorm assigns the fields of `foo`
that are not the zero value of their type and tracks `updated_at` itself. -/
def Flow.Updates (now : Time) (foo row : Flow) : Flow :=
  { Id := if foo.Id = "" then row.Id else foo.Id
    Name := if foo.Name = "" then row.Name else foo.Name
    Status := if foo.Status = 0 then row.Status else foo.Status
    CreatedAt := match foo.CreatedAt with
      | none => row.CreatedAt
      | some t => some t
    UpdatedAt := some now
    FinishedAt := match foo.FinishedAt with
      | none => row.FinishedAt
      | some t => some t }

/-- `Updates(foo)` on one row of `processes`. -/
def Process.Updates (now : Time) (foo row : Process) : Process :=
  { Id := if foo.Id = "" then row.Id else foo.Id
    Name := if foo.Name = "" then row.Name else foo.Name
    Status := if foo.Status = 0 then row.Status else foo.Status
    FlowId := if foo.FlowId = "" then row.FlowId else foo.FlowId
    CreatedAt := match foo.CreatedAt with
      | none => row.CreatedAt
      | some t => some t
    UpdatedAt := some now
    FinishedAt := match foo.FinishedAt with
      | none => row.FinishedAt
      | some t => some t }

/-- `Updates(foo)` on one row of `steps`. -/
def Step.Updates (now : Time) (foo row : Step) : Step :=
  { Id := if foo.Id = "" then row.Id else foo.Id
    Name := if foo.Name = "" then row.Name else foo.Name
    Status := if foo.Status = 0 then row.Status else foo.Status
    ProcId := if foo.ProcId = "" then row.ProcId else foo.ProcId
    FlowId := if foo.FlowId = "" then row.FlowId else foo.FlowId
    CreatedAt := match foo.CreatedAt with
      | none => row.CreatedAt
      | some t => some t
    UpdatedAt := some now
    FinishedAt := match foo.FinishedAt with
      | none => row.FinishedAt
      | some t => some t }

/-- `InsertFlow`: a new row with status `Begin`, created and updated at the
start time of the flow. -/
def InsertFlow (p : persistence) (fault : Option gorm.Error) (wf : flow.WorkFlow) :
    Option gorm.Error × persistence :=
  let foo : Flow :=
    { Id := wf.ID
      Name := wf.Name
      Status := Begin
      CreatedAt := some wf.StartTime
      UpdatedAt := some wf.StartTime
      FinishedAt := none }
  let res := gorm.Create Flow.Id fault p.flows foo
  (res.1, { p with flows := res.2 })

/-- `UpdateFlow`: status from the flags of the snapshot, `Suspend` last so
that it wins; the finish time only when the snapshot has one. -/
def UpdateFlow (p : persistence) (fault : Option gorm.Error) (now : Time) (wf : flow.WorkFlow) :
    Option gorm.Error × persistence :=
  let foo : Flow :=
    { Id := "", Name := "", Status := 0, CreatedAt := none, UpdatedAt := some now, FinishedAt := none }
  let foo := if wf.Success then { foo with Status := Success } else { foo with Status := Failure }
  let foo := if wf.HasSuspend then { foo with Status := Suspend } else foo
  let foo := if wf.EndTime ≠ none then { foo with FinishedAt := wf.EndTime } else foo
  let res := gorm.Update (fun r : Flow => r.Id == wf.ID) (Flow.Updates now foo) fault p.flows
  (res.1, { p with flows := res.2 })

/-- `InsertProc`. -/
def InsertProc (p : persistence) (fault : Option gorm.Error) (proc : flow.Process) :
    Option gorm.Error × persistence :=
  let foo : Process :=
    { Id := proc.ID
      Name := proc.Name
      Status := Begin
      FlowId := proc.FlowID
      CreatedAt := some proc.StartTime
      UpdatedAt := some proc.StartTime
      FinishedAt := none }
  let res := gorm.Create Process.Id fault p.processes foo
  (res.1, { p with processes := res.2 })

/-- `UpdateProc`. -/
def UpdateProc (p : persistence) (fault : Option gorm.Error) (now : Time) (proc : flow.Process) :
    Option gorm.Error × persistence :=
  let foo : Process :=
    { Id := "", Name := "", Status := 0, FlowId := "", CreatedAt := none, UpdatedAt := some now,
      FinishedAt := none }
  let foo := if proc.Success then { foo with Status := Success } else { foo with Status := Failure }
  let foo := if proc.HasSuspend then { foo with Status := Suspend } else foo
  let foo := if proc.EndTime ≠ none then { foo with FinishedAt := proc.EndTime } else foo
  let res := gorm.Update (fun r : Process => r.Id == proc.ID) (Process.Updates now foo) fault p.processes
  (res.1, { p with processes := res.2 })

/-- `InsertStep`. -/
def InsertStep (p : persistence) (fault : Option gorm.Error) (step : flow.Step) :
    Option gorm.Error × persistence :=
  let foo : Step :=
    { Id := step.ID
      Name := step.Name
      Status := Begin
      ProcId := step.ProcessID
      FlowId := step.FlowID
      CreatedAt := some step.StartTime
      UpdatedAt := some step.StartTime
      FinishedAt := none }
  let res := gorm.Create Step.Id fault p.steps foo
  (res.1, { p with steps := res.2 })

/-- `UpdateStep`. -/
def UpdateStep (p : persistence) (fault : Option gorm.Error) (now : Time) (step : flow.Step) :
    Option gorm.Error × persistence :=
  let foo : Step :=
    { Id := "", Name := "", Status := 0, ProcId := "", FlowId := "", CreatedAt := none,
      UpdatedAt := some now, FinishedAt := none }
  let foo := if step.Success then { foo with Status := Success } else { foo with Status := Failure }
  let foo := if step.HasSuspend then { foo with Status := Suspend } else foo
  let foo := if step.EndTime ≠ none then { foo with FinishedAt := step.EndTime } else foo
  let res := gorm.Update (fun r : Step => r.Id == step.ID) (Step.Updates now foo) fault p.steps
  (res.1, { p with steps := res.2 })

end orm

/-! ## `suspend.go` -/

/-- Row of table `checkpoints`. -/
structure Checkpoint where
  Id : String
  Uid : String
  Name : String
  RecoverId : String
  ParentUid : String
  RootUid : String
  Scope : Nat
  Snapshot : List Nat
  CreatedAt : Time
  UpdatedAt : Time
  deriving DecidableEq, Repr

/-- Row of table `recover_records`. -/
structure RecoverRecord where
  RootUid : String
  RecoverId : String
  Status : Nat
  Name : String
  CreatedAt : Time
  UpdatedAt : Time
  deriving DecidableEq, Repr

/-- The getters of `Checkpoint`: the row as the engine reads it back through
`flow.CheckPoint`. -/
def Checkpoint.asCheckPoint (c : Checkpoint) : flow.CheckPoint :=
  { Id := c.Id
    Uid := c.Uid
    Name := c.Name
    RecoverId := c.RecoverId
    ParentUid := c.ParentUid
    RootUid := c.RootUid
    Scope := c.Scope
    Snapshot := c.Snapshot }

/-- The getters of `RecoverRecord`: the row as the engine reads it back
through `flow.RecoverRecord`. -/
def RecoverRecord.asRecoverRecord (r : RecoverRecord) : flow.RecoverRecord :=
  { RootUid := r.RootUid
    RecoverId := r.RecoverId
    Status := r.Status
    Name := r.Name }

/-- The two recovery tables. -/
structure Tables where
  checkpoints : List Checkpoint
  recover_records : List RecoverRecord
  deriving DecidableEq, Repr

/-- The database behind `suspendPlugin`: the committed tables, which are what
every reader sees, and the private tables of the open transaction, if there
is one. -/
structure suspendPlugin where
  committed : Tables
  staged : Option Tables
  deriving DecidableEq, Repr

/-- How a call ends: it returns its `error` result, or it panics. -/
inductive Outcome where
  | returned (err : Option gorm.Error)
  | panicked (err : gorm.Error)
  deriving DecidableEq, Repr

/-- The driver errors met by the three statements of
`SaveCheckpointAndRecord`. -/
structure Faults where
  createCheckpoints : Option gorm.Error
  createRecord : Option gorm.Error
  commit : Option gorm.Error
  deriving DecidableEq, Repr

namespace suspendPlugin

/-- `s.Begin()`: opens a transaction that starts from the committed tables. -/
def Begin (s : suspendPlugin) : suspendPlugin :=
  { s with staged := some s.committed }

/-- `tx.Create(&cps)`: the batch INSERT into `checkpoints`, inside the
transaction. -/
def CreateCheckpoints (tx : suspendPlugin) (fault : Option gorm.Error) (cps : List Checkpoint) :
    Option gorm.Error × suspendPlugin :=
  match tx.staged with
  | none => (some gorm.Error.ErrInvalidTransaction, tx)
  | some t =>
    let res := gorm.CreateInBatch Checkpoint.Id fault t.checkpoints cps
    (res.1, { tx with staged := some { t with checkpoints := res.2 } })

/-- `tx.Create(rcd)`: the INSERT into `recover_records`, inside the
transaction. -/
def CreateRecord (tx : suspendPlugin) (fault : Option gorm.Error) (rcd : RecoverRecord) :
    Option gorm.Error × suspendPlugin :=
  match tx.staged with
  | none => (some gorm.Error.ErrInvalidTransaction, tx)
  | some t =>
    let res := gorm.Create RecoverRecord.RecoverId fault t.recover_records rcd
    (res.1, { tx with staged := some { t with recover_records := res.2 } })

/-- `tx.Commit()`: the tables of the transaction become the committed ones; a
commit that fails publishes nothing. -/
def Commit (tx : suspendPlugin) (fault : Option gorm.Error) : Option gorm.Error × suspendPlugin :=
  match fault with
  | some e => (some e, tx)
  | none =>
    match tx.staged with
    | none => (some gorm.Error.ErrInvalidTransaction, tx)
    | some t => (none, { committed := t, staged := none })

/-- `tx.Rollback()`: the tables of the transaction are dropped. -/
def Rollback (tx : suspendPlugin) : suspendPlugin :=
  { tx with staged := none }

/-- `GetLatestRecord`: the first `Idle` record of the root, together with the
error of the query. -/
def GetLatestRecord (s : suspendPlugin) (fault : Option gorm.Error) (rootUid : String) :
    RecoverRecord × Option gorm.Error :=
  let zero : RecoverRecord :=
    { RootUid := "", RecoverId := "", Status := 0, Name := "", CreatedAt := 0, UpdatedAt := 0 }
  let result := gorm.First RecoverRecord.RecoverId zero
    (fun r => r.RootUid == rootUid && r.Status == flow.RecoverIdle) fault s.committed.recover_records
  match result.2 with
  | some err => (result.1, some err)
  | none => (result.1, none)

/-- `ListCheckpoints`: every checkpoint row with the given recover-id; `nil`
with the error when the query fails. -/
def ListCheckpoints (s : suspendPlugin) (fault : Option gorm.Error) (recoverId : String) :
    List Checkpoint × Option gorm.Error :=
  let result := gorm.Find (fun c : Checkpoint => c.RecoverId == recoverId) fault s.committed.checkpoints
  match result.2 with
  | some err => ([], some err)
  | none => (result.1, none)

/-- `UpdateRecordStatus`: writes the status of `record` into the row with its
recover-id; gorm tracks `updated_at` on the way. -/
def UpdateRecordStatus (s : suspendPlugin) (fault : Option gorm.Error) (now : Time)
    (record : flow.RecoverRecord) : Option gorm.Error × suspendPlugin :=
  let result := gorm.Update (fun r : RecoverRecord => r.RecoverId == record.RecoverId)
    (fun r => { r with Status := record.Status, UpdatedAt := now }) fault s.committed.recover_records
  match result.1 with
  | some err => (some err, s)
  | none => (none, { s with committed := { s.committed with recover_records := result.2 } })

/-- `SaveCheckpointAndRecord`: begin, insert the checkpoints, insert the
record, commit.  A failed checkpoint insert rolls back and panics; a failed
record insert or commit rolls back and returns the error. -/
def SaveCheckpointAndRecord (s : suspendPlugin) (faults : Faults) (now : Time)
    (checkpoints : List flow.CheckPoint) (record : flow.RecoverRecord) : Outcome × suspendPlugin :=
  let tx := s.Begin
  let cps : List Checkpoint := checkpoints.map (fun cp =>
    { Id := cp.Id
      Uid := cp.Uid
      Name := cp.Name
      Snapshot := cp.Snapshot
      RecoverId := cp.RecoverId
      ParentUid := cp.ParentUid
      RootUid := cp.RootUid
      Scope := cp.Scope
      CreatedAt := now
      UpdatedAt := now })
  match tx.CreateCheckpoints faults.createCheckpoints cps with
  | (some err, tx) => (Outcome.panicked err, tx.Rollback)
  | (none, tx) =>
    let rcd : RecoverRecord :=
      { RootUid := record.RootUid
        RecoverId := record.RecoverId
        Status := record.Status
        Name := record.Name
        CreatedAt := now
        UpdatedAt := now }
    match tx.CreateRecord faults.createRecord rcd with
    | (some err, tx) => (Outcome.returned (some err), tx.Rollback)
    | (none, tx) =>
      match tx.Commit faults.commit with
      | (some err, tx) => (Outcome.returned (some err), tx.Rollback)
      | (none, tx) => (Outcome.returned none, tx)

end suspendPlugin

/-- No fault at any of the three statements. -/
def Faults.none : Faults :=
  { createCheckpoints := Option.none, createRecord := Option.none, commit := Option.none }

/-- The database before anything was stored. -/
def suspendPlugin.empty : suspendPlugin :=
  { committed := { checkpoints := [], recover_records := [] }, staged := Option.none }

/-- The row that `SaveCheckpointAndRecord` builds from a checkpoint of the
engine. -/
def Checkpoint.ofCheckPoint (now : Time) (cp : flow.CheckPoint) : Checkpoint :=
  { Id := cp.Id
    Uid := cp.Uid
    Name := cp.Name
    Snapshot := cp.Snapshot
    RecoverId := cp.RecoverId
    ParentUid := cp.ParentUid
    RootUid := cp.RootUid
    Scope := cp.Scope
    CreatedAt := now
    UpdatedAt := now }

/-- The row that `SaveCheckpointAndRecord` builds from the record of the
engine. -/
def RecoverRecord.ofRecoverRecord (now : Time) (record : flow.RecoverRecord) : RecoverRecord :=
  { RootUid := record.RootUid
    RecoverId := record.RecoverId
    Status := record.Status
    Name := record.Name
    CreatedAt := now
    UpdatedAt := now }

/-! ## Sequences of calls -/

namespace orm

/-- A run of `UpdateFlow` calls, each with the fault it meets, its clock
reading and its snapshot. -/
def UpdateFlowAll (p : persistence) : List (Option gorm.Error × Time × flow.WorkFlow) → persistence
  | [] => p
  | u :: us => UpdateFlowAll (UpdateFlow p u.1 u.2.1 u.2.2).2 us

/-- A run of `UpdateProc` calls. -/
def UpdateProcAll (p : persistence) : List (Option gorm.Error × Time × flow.Process) → persistence
  | [] => p
  | u :: us => UpdateProcAll (UpdateProc p u.1 u.2.1 u.2.2).2 us

/-- A run of `UpdateStep` calls. -/
def UpdateStepAll (p : persistence) : List (Option gorm.Error × Time × flow.Step) → persistence
  | [] => p
  | u :: us => UpdateStepAll (UpdateStep p u.1 u.2.1 u.2.2).2 us

end orm

namespace orm

/-- One call of the engine on a status table: the insert or the update
callback, with the fault the statement meets and, for an update, the clock
reading. -/
inductive Call (σ : Type) where
  | Insert (fault : Option gorm.Error) (snapshot : σ)
  | Update (fault : Option gorm.Error) (now : Time) (snapshot : σ)

/-- A sequence of `InsertFlow` and `UpdateFlow` calls. -/
def runFlow (p : persistence) : List (Call flow.WorkFlow) → persistence
  | [] => p
  | Call.Insert f wf :: cs => runFlow (InsertFlow p f wf).2 cs
  | Call.Update f now wf :: cs => runFlow (UpdateFlow p f now wf).2 cs

/-- A sequence of `InsertProc` and `UpdateProc` calls. -/
def runProc (p : persistence) : List (Call flow.Process) → persistence
  | [] => p
  | Call.Insert f proc :: cs => runProc (InsertProc p f proc).2 cs
  | Call.Update f now proc :: cs => runProc (UpdateProc p f now proc).2 cs

/-- A sequence of `InsertStep` and `UpdateStep` calls. -/
def runStep (p : persistence) : List (Call flow.Step) → persistence
  | [] => p
  | Call.Insert f step :: cs => runStep (InsertStep p f step).2 cs
  | Call.Update f now step :: cs => runStep (UpdateStep p f now step).2 cs

end orm

/-- The states of the recovery store that its operations produce from the
empty database.  `GetLatestRecord` and `ListCheckpoints` only read, so the
steps are the calls of `SaveCheckpointAndRecord` and `UpdateRecordStatus`,
with any arguments and any faults. -/
inductive Reachable : suspendPlugin → Prop where
  | empty : Reachable suspendPlugin.empty
  | save (s : suspendPlugin) (faults : Faults) (now : Time) (checkpoints : List flow.CheckPoint)
      (record : flow.RecoverRecord) :
      Reachable s → Reachable (s.SaveCheckpointAndRecord faults now checkpoints record).2
  | update (s : suspendPlugin) (fault : Option gorm.Error) (now : Time)
      (record : flow.RecoverRecord) :
      Reachable s → Reachable (s.UpdateRecordStatus fault now record).2

/-- The recovery store after root u1 was suspended twice, at time 7 under
recover-id R1 and at time 8 under recover-id R2, with nothing recovered in
between. -/
def suspendPlugin.suspendedTwice : suspendPlugin :=
  ((suspendPlugin.empty.SaveCheckpointAndRecord Faults.none 7
      [⟨"c1", "u1", "flow", "R1", "", "u1", 0, [1, 2]⟩] ⟨"u1", "R1", flow.RecoverIdle, "flow"⟩).2
    |>.SaveCheckpointAndRecord Faults.none 8
      [⟨"c2", "u1", "flow", "R2", "", "u1", 0, [3]⟩] ⟨"u1", "R2", flow.RecoverIdle, "flow"⟩).2

/-- One writing call on the recovery store, with the faults it meets and its
clock reading. -/
inductive StoreCall where
  | Save (faults : Faults) (now : Time) (checkpoints : List flow.CheckPoint)
      (record : flow.RecoverRecord)
  | UpdateStatus (fault : Option gorm.Error) (now : Time) (record : flow.RecoverRecord)

/-- True for a call of `UpdateRecordStatus` that carries the given recover-id
together with status Idle. -/
def StoreCall.setsIdle (recoverId : String) : StoreCall → Bool
  | StoreCall.Save _ _ _ _ => false
  | StoreCall.UpdateStatus _ _ record =>
    record.RecoverId == recoverId && record.Status == flow.RecoverIdle

/-- A sequence of `SaveCheckpointAndRecord` and `UpdateRecordStatus` calls. -/
def suspendPlugin.run (s : suspendPlugin) : List StoreCall → suspendPlugin
  | [] => s
  | StoreCall.Save faults now checkpoints record :: cs =>
    suspendPlugin.run (s.SaveCheckpointAndRecord faults now checkpoints record).2 cs
  | StoreCall.UpdateStatus fault now record :: cs =>
    suspendPlugin.run (s.UpdateRecordStatus fault now record).2 cs

/-! ## Theorems: the status tracker -/

namespace orm

/-- The row that `UpdateFlow` leaves in place of a row with the id of the
snapshot. -/
theorem UpdateFlow_flows (p : persistence) (now : Time) (wf : flow.WorkFlow) :
    (UpdateFlow p none now wf).2.flows = p.flows.map (fun r =>
      if r.Id = wf.ID then
        { r with
          Status := if wf.HasSuspend then Suspend else if wf.Success then Success else Failure
          UpdatedAt := some now
          FinishedAt := if wf.EndTime = none then r.FinishedAt else wf.EndTime }
      else r) := by
  simp only [UpdateFlow, gorm.Update]
  apply List.map_congr_left
  intro r _
  by_cases hid : r.Id = wf.ID
  · cases hs : wf.HasSuspend <;> cases hc : wf.Success <;> cases he : wf.EndTime <;>
      simp [hid, Flow.Updates, Suspend, Success, Failure]
  · simp [hid]

/-- The row that `UpdateProc` leaves in place of a row with the id of the
snapshot. -/
theorem UpdateProc_processes (p : persistence) (now : Time) (proc : flow.Process) :
    (UpdateProc p none now proc).2.processes = p.processes.map (fun r =>
      if r.Id = proc.ID then
        { r with
          Status := if proc.HasSuspend then Suspend else if proc.Success then Success else Failure
          UpdatedAt := some now
          FinishedAt := if proc.EndTime = none then r.FinishedAt else proc.EndTime }
      else r) := by
  simp only [UpdateProc, gorm.Update]
  apply List.map_congr_left
  intro r _
  by_cases hid : r.Id = proc.ID
  · cases hs : proc.HasSuspend <;> cases hc : proc.Success <;> cases he : proc.EndTime <;>
      simp [hid, Process.Updates, Suspend, Success, Failure]
  · simp [hid]

/-- The row that `UpdateStep` leaves in place of a row with the id of the
snapshot. -/
theorem UpdateStep_steps (p : persistence) (now : Time) (step : flow.Step) :
    (UpdateStep p none now step).2.steps = p.steps.map (fun r =>
      if r.Id = step.ID then
        { r with
          Status := if step.HasSuspend then Suspend else if step.Success then Success else Failure
          UpdatedAt := some now
          FinishedAt := if step.EndTime = none then r.FinishedAt else step.EndTime }
      else r) := by
  simp only [UpdateStep, gorm.Update]
  apply List.map_congr_left
  intro r _
  by_cases hid : r.Id = step.ID
  · cases hs : step.HasSuspend <;> cases hc : step.Success <;> cases he : step.EndTime <;>
      simp [hid, Step.Updates, Suspend, Success, Failure]
  · simp [hid]

/-- An update that the driver fails changes nothing and returns the error of
the driver. -/
theorem UpdateFlow_fault (p : persistence) (e : gorm.Error) (now : Time) (wf : flow.WorkFlow) :
    UpdateFlow p (some e) now wf = (some e, p) := by
  simp [UpdateFlow, gorm.Update]

/-- A failed `UpdateProc` changes nothing. -/
theorem UpdateProc_fault (p : persistence) (e : gorm.Error) (now : Time) (proc : flow.Process) :
    UpdateProc p (some e) now proc = (some e, p) := by
  simp [UpdateProc, gorm.Update]

/-- A failed `UpdateStep` changes nothing. -/
theorem UpdateStep_fault (p : persistence) (e : gorm.Error) (now : Time) (step : flow.Step) :
    UpdateStep p (some e) now step = (some e, p) := by
  simp [UpdateStep, gorm.Update]

end orm

/-- C1: for each entity kind and every snapshot, an Update that reaches the
table writes into the rows with the snapshot's id the status Suspend when the
suspended flag is set, whatever the success flag, and otherwise Success or
Failure after the success flag; the status it writes is never Begin. -/
theorem C1_update_writes_derived_status (p : orm.persistence) (now : Time) :
    (∀ wf : flow.WorkFlow,
      (orm.UpdateFlow p none now wf).2.flows.map orm.Flow.Status =
        p.flows.map (fun r => if r.Id = wf.ID then
          (if wf.HasSuspend then orm.Suspend else if wf.Success then orm.Success else orm.Failure)
          else r.Status)
      ∧ ∀ r ∈ (orm.UpdateFlow p none now wf).2.flows, r.Id = wf.ID → r.Status ≠ orm.Begin)
    ∧ (∀ proc : flow.Process,
      (orm.UpdateProc p none now proc).2.processes.map orm.Process.Status =
        p.processes.map (fun r => if r.Id = proc.ID then
          (if proc.HasSuspend then orm.Suspend else if proc.Success then orm.Success else orm.Failure)
          else r.Status)
      ∧ ∀ r ∈ (orm.UpdateProc p none now proc).2.processes, r.Id = proc.ID → r.Status ≠ orm.Begin)
    ∧ (∀ step : flow.Step,
      (orm.UpdateStep p none now step).2.steps.map orm.Step.Status =
        p.steps.map (fun r => if r.Id = step.ID then
          (if step.HasSuspend then orm.Suspend else if step.Success then orm.Success else orm.Failure)
          else r.Status)
      ∧ ∀ r ∈ (orm.UpdateStep p none now step).2.steps, r.Id = step.ID → r.Status ≠ orm.Begin) := by
  refine ⟨fun wf => ⟨?_, ?_⟩, fun proc => ⟨?_, ?_⟩, fun step => ⟨?_, ?_⟩⟩
  · rw [orm.UpdateFlow_flows, List.map_map]
    apply List.map_congr_left
    intro r _
    by_cases h : r.Id = wf.ID <;> simp [h]
  · rw [orm.UpdateFlow_flows]
    intro r hr hid
    obtain ⟨r0, _, rfl⟩ := List.mem_map.mp hr
    by_cases h : r0.Id = wf.ID
    · cases wf.HasSuspend <;> cases wf.Success <;> simp [h, orm.Suspend, orm.Success, orm.Failure, orm.Begin]
    · simp [h] at hid
  · rw [orm.UpdateProc_processes, List.map_map]
    apply List.map_congr_left
    intro r _
    by_cases h : r.Id = proc.ID <;> simp [h]
  · rw [orm.UpdateProc_processes]
    intro r hr hid
    obtain ⟨r0, _, rfl⟩ := List.mem_map.mp hr
    by_cases h : r0.Id = proc.ID
    · cases proc.HasSuspend <;> cases proc.Success <;> simp [h, orm.Suspend, orm.Success, orm.Failure, orm.Begin]
    · simp [h] at hid
  · rw [orm.UpdateStep_steps, List.map_map]
    apply List.map_congr_left
    intro r _
    by_cases h : r.Id = step.ID <;> simp [h]
  · rw [orm.UpdateStep_steps]
    intro r hr hid
    obtain ⟨r0, _, rfl⟩ := List.mem_map.mp hr
    by_cases h : r0.Id = step.ID
    · cases step.HasSuspend <;> cases step.Success <;> simp [h, orm.Suspend, orm.Success, orm.Failure, orm.Begin]
    · simp [h] at hid

namespace orm

/-- What one `UpdateFlow` does to the table, row by row: a row keeps
everything but status, updated-time and finished-time, and a row with another
id keeps those too. -/
theorem UpdateFlow_frame (p : persistence) (fault : Option gorm.Error) (now : Time)
    (wf : flow.WorkFlow) :
    List.Forall₂ (fun r r' : Flow =>
        r' = { r with Status := r'.Status, UpdatedAt := r'.UpdatedAt, FinishedAt := r'.FinishedAt }
        ∧ (r.Id ≠ wf.ID → r' = r))
      p.flows (UpdateFlow p fault now wf).2.flows := by
  cases fault with
  | some e => rw [UpdateFlow_fault]; exact List.forall₂_same.mpr (fun r _ => ⟨rfl, fun _ => rfl⟩)
  | none =>
    rw [UpdateFlow_flows, List.forall₂_map_right_iff]
    refine List.forall₂_same.mpr (fun r _ => ?_)
    by_cases h : r.Id = wf.ID <;> simp [h]

/-- `UpdateFlow` touches neither `processes` nor `steps`. -/
theorem UpdateFlow_others (p : persistence) (fault : Option gorm.Error) (now : Time)
    (wf : flow.WorkFlow) :
    (UpdateFlow p fault now wf).2.processes = p.processes
      ∧ (UpdateFlow p fault now wf).2.steps = p.steps := by
  simp [UpdateFlow]

/-- Ids, names and created-times of `flows`, in table order, are the same
after `UpdateFlow`. -/
theorem UpdateFlow_keeps (p : persistence) (fault : Option gorm.Error) (now : Time)
    (wf : flow.WorkFlow) :
    (UpdateFlow p fault now wf).2.flows.map (fun r => (r.Id, r.Name, r.CreatedAt))
      = p.flows.map (fun r => (r.Id, r.Name, r.CreatedAt)) := by
  cases fault with
  | some e => rw [UpdateFlow_fault]
  | none =>
    rw [UpdateFlow_flows, List.map_map]
    apply List.map_congr_left
    intro r _
    by_cases h : r.Id = wf.ID <;> simp [h]

/-- The same after any run of `UpdateFlow` calls. -/
theorem UpdateFlowAll_keeps (us : List (Option gorm.Error × Time × flow.WorkFlow)) :
    ∀ p : persistence, (UpdateFlowAll p us).flows.map (fun r => (r.Id, r.Name, r.CreatedAt))
      = p.flows.map (fun r => (r.Id, r.Name, r.CreatedAt)) := by
  induction us with
  | nil => intro p; rfl
  | cons u us ih => intro p; rw [UpdateFlowAll, ih, UpdateFlow_keeps]

/-- A successful `InsertFlow` appends its row to a table that had no row with
that id. -/
theorem InsertFlow_ok (p p1 : persistence) (fault : Option gorm.Error) (wf : flow.WorkFlow)
    (h : InsertFlow p fault wf = (none, p1)) :
    p1.flows = p.flows ++ [(⟨wf.ID, wf.Name, Begin, some wf.StartTime, some wf.StartTime, none⟩ : Flow)]
      ∧ (∀ r ∈ p.flows, r.Id ≠ wf.ID) ∧ p1.processes = p.processes ∧ p1.steps = p.steps := by
  unfold InsertFlow gorm.Create at h
  cases fault with
  | some e => simp at h
  | none =>
    by_cases hd : (p.flows.any fun r => r.Id == wf.ID) = true
    · simp [hd] at h
    · simp only [hd] at h
      simp only [Bool.false_eq_true, if_false, Prod.mk.injEq, true_and] at h
      subst h
      refine ⟨rfl, ?_, rfl, rfl⟩
      intro r hr hid
      exact hd (List.any_eq_true.mpr ⟨r, hr, by simp [hid]⟩)

/-- After a successful `InsertFlow` and any run of updates the table holds a
row with the inserted id, and every such row has the inserted name and
created-time. -/
theorem InsertFlow_then_updates (p p1 : persistence) (fault : Option gorm.Error)
    (wf : flow.WorkFlow) (us : List (Option gorm.Error × Time × flow.WorkFlow))
    (h : InsertFlow p fault wf = (none, p1)) :
    (∃ r ∈ (UpdateFlowAll p1 us).flows, r.Id = wf.ID)
      ∧ ∀ r ∈ (UpdateFlowAll p1 us).flows, r.Id = wf.ID →
          r.Name = wf.Name ∧ r.CreatedAt = some wf.StartTime := by
  obtain ⟨h1, h2, -, -⟩ := InsertFlow_ok p p1 fault wf h
  have hk := UpdateFlowAll_keeps us p1
  rw [h1] at hk
  have key : ∀ t : String × String × Option Time,
      t ∈ (UpdateFlowAll p1 us).flows.map (fun r => (r.Id, r.Name, r.CreatedAt)) →
      t.1 = wf.ID → t = (wf.ID, wf.Name, some wf.StartTime) := by
    intro t ht hid
    rw [hk, List.map_append, List.mem_append] at ht
    rcases ht with ht | ht
    · obtain ⟨r, hr, rfl⟩ := List.mem_map.mp ht
      exact absurd hid (h2 r hr)
    · simpa using ht
  constructor
  · have : (wf.ID, wf.Name, some wf.StartTime) ∈
        (UpdateFlowAll p1 us).flows.map (fun r => (r.Id, r.Name, r.CreatedAt)) := by
      rw [hk]; simp
    obtain ⟨r, hr, he⟩ := List.mem_map.mp this
    exact ⟨r, hr, by simpa using congrArg Prod.fst he⟩
  · intro r hr hid
    have := key (r.Id, r.Name, r.CreatedAt) (List.mem_map.mpr ⟨r, hr, rfl⟩) hid
    simp only [Prod.mk.injEq] at this
    exact ⟨this.2.1, this.2.2⟩

/-- What one `UpdateProc` does to the table, row by row: a row keeps
everything but status, updated-time and finished-time, and a row with another
id keeps those too. -/
theorem UpdateProc_frame (p : persistence) (fault : Option gorm.Error) (now : Time)
    (proc : flow.Process) :
    List.Forall₂ (fun r r' : Process =>
        r' = { r with Status := r'.Status, UpdatedAt := r'.UpdatedAt, FinishedAt := r'.FinishedAt }
        ∧ (r.Id ≠ proc.ID → r' = r))
      p.processes (UpdateProc p fault now proc).2.processes := by
  cases fault with
  | some e => rw [UpdateProc_fault]; exact List.forall₂_same.mpr (fun r _ => ⟨rfl, fun _ => rfl⟩)
  | none =>
    rw [UpdateProc_processes, List.forall₂_map_right_iff]
    refine List.forall₂_same.mpr (fun r _ => ?_)
    by_cases h : r.Id = proc.ID <;> simp [h]

/-- `UpdateProc` touches neither `flows` nor `steps`. -/
theorem UpdateProc_others (p : persistence) (fault : Option gorm.Error) (now : Time)
    (proc : flow.Process) :
    (UpdateProc p fault now proc).2.flows = p.flows
      ∧ (UpdateProc p fault now proc).2.steps = p.steps := by
  simp [UpdateProc]

/-- Ids, names and created-times of `processes`, in table order, are the same
after `UpdateProc`. -/
theorem UpdateProc_keeps (p : persistence) (fault : Option gorm.Error) (now : Time)
    (proc : flow.Process) :
    (UpdateProc p fault now proc).2.processes.map (fun r => (r.Id, r.Name, r.CreatedAt))
      = p.processes.map (fun r => (r.Id, r.Name, r.CreatedAt)) := by
  cases fault with
  | some e => rw [UpdateProc_fault]
  | none =>
    rw [UpdateProc_processes, List.map_map]
    apply List.map_congr_left
    intro r _
    by_cases h : r.Id = proc.ID <;> simp [h]

/-- The same after any run of `UpdateProc` calls. -/
theorem UpdateProcAll_keeps (us : List (Option gorm.Error × Time × flow.Process)) :
    ∀ p : persistence, (UpdateProcAll p us).processes.map (fun r => (r.Id, r.Name, r.CreatedAt))
      = p.processes.map (fun r => (r.Id, r.Name, r.CreatedAt)) := by
  induction us with
  | nil => intro p; rfl
  | cons u us ih => intro p; rw [UpdateProcAll, ih, UpdateProc_keeps]

/-- A successful `InsertProc` appends its row to a table that had no row with
that id. -/
theorem InsertProc_ok (p p1 : persistence) (fault : Option gorm.Error) (proc : flow.Process)
    (h : InsertProc p fault proc = (none, p1)) :
    p1.processes = p.processes ++ [(⟨proc.ID, proc.Name, Begin, proc.FlowID, some proc.StartTime, some proc.StartTime, none⟩ : Process)]
      ∧ (∀ r ∈ p.processes, r.Id ≠ proc.ID) ∧ p1.flows = p.flows ∧ p1.steps = p.steps := by
  unfold InsertProc gorm.Create at h
  cases fault with
  | some e => simp at h
  | none =>
    by_cases hd : (p.processes.any fun r => r.Id == proc.ID) = true
    · simp [hd] at h
    · simp only [hd] at h
      simp only [Bool.false_eq_true, if_false, Prod.mk.injEq, true_and] at h
      subst h
      refine ⟨rfl, ?_, rfl, rfl⟩
      intro r hr hid
      exact hd (List.any_eq_true.mpr ⟨r, hr, by simp [hid]⟩)

/-- After a successful `InsertProc` and any run of updates the table holds a
row with the inserted id, and every such row has the inserted name and
created-time. -/
theorem InsertProc_then_updates (p p1 : persistence) (fault : Option gorm.Error)
    (proc : flow.Process) (us : List (Option gorm.Error × Time × flow.Process))
    (h : InsertProc p fault proc = (none, p1)) :
    (∃ r ∈ (UpdateProcAll p1 us).processes, r.Id = proc.ID)
      ∧ ∀ r ∈ (UpdateProcAll p1 us).processes, r.Id = proc.ID →
          r.Name = proc.Name ∧ r.CreatedAt = some proc.StartTime := by
  obtain ⟨h1, h2, -, -⟩ := InsertProc_ok p p1 fault proc h
  have hk := UpdateProcAll_keeps us p1
  rw [h1] at hk
  have key : ∀ t : String × String × Option Time,
      t ∈ (UpdateProcAll p1 us).processes.map (fun r => (r.Id, r.Name, r.CreatedAt)) →
      t.1 = proc.ID → t = (proc.ID, proc.Name, some proc.StartTime) := by
    intro t ht hid
    rw [hk, List.map_append, List.mem_append] at ht
    rcases ht with ht | ht
    · obtain ⟨r, hr, rfl⟩ := List.mem_map.mp ht
      exact absurd hid (h2 r hr)
    · simpa using ht
  constructor
  · have : (proc.ID, proc.Name, some proc.StartTime) ∈
        (UpdateProcAll p1 us).processes.map (fun r => (r.Id, r.Name, r.CreatedAt)) := by
      rw [hk]; simp
    obtain ⟨r, hr, he⟩ := List.mem_map.mp this
    exact ⟨r, hr, by simpa using congrArg Prod.fst he⟩
  · intro r hr hid
    have := key (r.Id, r.Name, r.CreatedAt) (List.mem_map.mpr ⟨r, hr, rfl⟩) hid
    simp only [Prod.mk.injEq] at this
    exact ⟨this.2.1, this.2.2⟩

/-- What one `UpdateStep` does to the table, row by row: a row keeps
everything but status, updated-time and finished-time, and a row with another
id keeps those too. -/
theorem UpdateStep_frame (p : persistence) (fault : Option gorm.Error) (now : Time)
    (step : flow.Step) :
    List.Forall₂ (fun r r' : Step =>
        r' = { r with Status := r'.Status, UpdatedAt := r'.UpdatedAt, FinishedAt := r'.FinishedAt }
        ∧ (r.Id ≠ step.ID → r' = r))
      p.steps (UpdateStep p fault now step).2.steps := by
  cases fault with
  | some e => rw [UpdateStep_fault]; exact List.forall₂_same.mpr (fun r _ => ⟨rfl, fun _ => rfl⟩)
  | none =>
    rw [UpdateStep_steps, List.forall₂_map_right_iff]
    refine List.forall₂_same.mpr (fun r _ => ?_)
    by_cases h : r.Id = step.ID <;> simp [h]

/-- `UpdateStep` touches neither `flows` nor `processes`. -/
theorem UpdateStep_others (p : persistence) (fault : Option gorm.Error) (now : Time)
    (step : flow.Step) :
    (UpdateStep p fault now step).2.flows = p.flows
      ∧ (UpdateStep p fault now step).2.processes = p.processes := by
  simp [UpdateStep]

/-- Ids, names and created-times of `steps`, in table order, are the same
after `UpdateStep`. -/
theorem UpdateStep_keeps (p : persistence) (fault : Option gorm.Error) (now : Time)
    (step : flow.Step) :
    (UpdateStep p fault now step).2.steps.map (fun r => (r.Id, r.Name, r.CreatedAt))
      = p.steps.map (fun r => (r.Id, r.Name, r.CreatedAt)) := by
  cases fault with
  | some e => rw [UpdateStep_fault]
  | none =>
    rw [UpdateStep_steps, List.map_map]
    apply List.map_congr_left
    intro r _
    by_cases h : r.Id = step.ID <;> simp [h]

/-- The same after any run of `UpdateStep` calls. -/
theorem UpdateStepAll_keeps (us : List (Option gorm.Error × Time × flow.Step)) :
    ∀ p : persistence, (UpdateStepAll p us).steps.map (fun r => (r.Id, r.Name, r.CreatedAt))
      = p.steps.map (fun r => (r.Id, r.Name, r.CreatedAt)) := by
  induction us with
  | nil => intro p; rfl
  | cons u us ih => intro p; rw [UpdateStepAll, ih, UpdateStep_keeps]

/-- A successful `InsertStep` appends its row to a table that had no row with
that id. -/
theorem InsertStep_ok (p p1 : persistence) (fault : Option gorm.Error) (step : flow.Step)
    (h : InsertStep p fault step = (none, p1)) :
    p1.steps = p.steps ++ [(⟨step.ID, step.Name, Begin, step.ProcessID, step.FlowID, some step.StartTime, some step.StartTime, none⟩ : Step)]
      ∧ (∀ r ∈ p.steps, r.Id ≠ step.ID) ∧ p1.flows = p.flows ∧ p1.processes = p.processes := by
  unfold InsertStep gorm.Create at h
  cases fault with
  | some e => simp at h
  | none =>
    by_cases hd : (p.steps.any fun r => r.Id == step.ID) = true
    · simp [hd] at h
    · simp only [hd] at h
      simp only [Bool.false_eq_true, if_false, Prod.mk.injEq, true_and] at h
      subst h
      refine ⟨rfl, ?_, rfl, rfl⟩
      intro r hr hid
      exact hd (List.any_eq_true.mpr ⟨r, hr, by simp [hid]⟩)

/-- After a successful `InsertStep` and any run of updates the table holds a
row with the inserted id, and every such row has the inserted name and
created-time. -/
theorem InsertStep_then_updates (p p1 : persistence) (fault : Option gorm.Error)
    (step : flow.Step) (us : List (Option gorm.Error × Time × flow.Step))
    (h : InsertStep p fault step = (none, p1)) :
    (∃ r ∈ (UpdateStepAll p1 us).steps, r.Id = step.ID)
      ∧ ∀ r ∈ (UpdateStepAll p1 us).steps, r.Id = step.ID →
          r.Name = step.Name ∧ r.CreatedAt = some step.StartTime := by
  obtain ⟨h1, h2, -, -⟩ := InsertStep_ok p p1 fault step h
  have hk := UpdateStepAll_keeps us p1
  rw [h1] at hk
  have key : ∀ t : String × String × Option Time,
      t ∈ (UpdateStepAll p1 us).steps.map (fun r => (r.Id, r.Name, r.CreatedAt)) →
      t.1 = step.ID → t = (step.ID, step.Name, some step.StartTime) := by
    intro t ht hid
    rw [hk, List.map_append, List.mem_append] at ht
    rcases ht with ht | ht
    · obtain ⟨r, hr, rfl⟩ := List.mem_map.mp ht
      exact absurd hid (h2 r hr)
    · simpa using ht
  constructor
  · have : (step.ID, step.Name, some step.StartTime) ∈
        (UpdateStepAll p1 us).steps.map (fun r => (r.Id, r.Name, r.CreatedAt)) := by
      rw [hk]; simp
    obtain ⟨r, hr, he⟩ := List.mem_map.mp this
    exact ⟨r, hr, by simpa using congrArg Prod.fst he⟩
  · intro r hr hid
    have := key (r.Id, r.Name, r.CreatedAt) (List.mem_map.mpr ⟨r, hr, rfl⟩) hid
    simp only [Prod.mk.injEq] at this
    exact ⟨this.2.1, this.2.2⟩

end orm

/-- C2: after a successful Insert and any run of Updates (on that id or any
other, failing or not) the table holds a row with the inserted id, and every
such row carries the name and created-time written by the Insert; one Update
leaves every row as it was except for status, updated-time and finished-time,
leaves rows with another id entirely as they were, and does not touch the
other tables.  Flow, Process and Step alike. -/
theorem C2_update_is_partial_patch (p pF pP pS : orm.persistence)
    (fF fP fS : Option gorm.Error)
    (wf : flow.WorkFlow) (proc : flow.Process) (step : flow.Step)
    (usF : List (Option gorm.Error × Time × flow.WorkFlow))
    (usP : List (Option gorm.Error × Time × flow.Process))
    (usS : List (Option gorm.Error × Time × flow.Step))
    (hF : orm.InsertFlow p fF wf = (none, pF))
    (hP : orm.InsertProc p fP proc = (none, pP))
    (hS : orm.InsertStep p fS step = (none, pS)) :
    ((∃ r ∈ (orm.UpdateFlowAll pF usF).flows, r.Id = wf.ID)
      ∧ ∀ r ∈ (orm.UpdateFlowAll pF usF).flows, r.Id = wf.ID →
          r.Name = wf.Name ∧ r.CreatedAt = some wf.StartTime)
    ∧ ((∃ r ∈ (orm.UpdateProcAll pP usP).processes, r.Id = proc.ID)
      ∧ ∀ r ∈ (orm.UpdateProcAll pP usP).processes, r.Id = proc.ID →
          r.Name = proc.Name ∧ r.CreatedAt = some proc.StartTime)
    ∧ ((∃ r ∈ (orm.UpdateStepAll pS usS).steps, r.Id = step.ID)
      ∧ ∀ r ∈ (orm.UpdateStepAll pS usS).steps, r.Id = step.ID →
          r.Name = step.Name ∧ r.CreatedAt = some step.StartTime)
    ∧ (∀ (q : orm.persistence) (f : Option gorm.Error) (now : Time) (u : flow.WorkFlow),
        List.Forall₂ (fun r r' : orm.Flow =>
            r' = { r with Status := r'.Status, UpdatedAt := r'.UpdatedAt, FinishedAt := r'.FinishedAt }
            ∧ (r.Id ≠ u.ID → r' = r))
          q.flows (orm.UpdateFlow q f now u).2.flows
        ∧ (orm.UpdateFlow q f now u).2.processes = q.processes
        ∧ (orm.UpdateFlow q f now u).2.steps = q.steps)
    ∧ (∀ (q : orm.persistence) (f : Option gorm.Error) (now : Time) (u : flow.Process),
        List.Forall₂ (fun r r' : orm.Process =>
            r' = { r with Status := r'.Status, UpdatedAt := r'.UpdatedAt, FinishedAt := r'.FinishedAt }
            ∧ (r.Id ≠ u.ID → r' = r))
          q.processes (orm.UpdateProc q f now u).2.processes
        ∧ (orm.UpdateProc q f now u).2.flows = q.flows
        ∧ (orm.UpdateProc q f now u).2.steps = q.steps)
    ∧ (∀ (q : orm.persistence) (f : Option gorm.Error) (now : Time) (u : flow.Step),
        List.Forall₂ (fun r r' : orm.Step =>
            r' = { r with Status := r'.Status, UpdatedAt := r'.UpdatedAt, FinishedAt := r'.FinishedAt }
            ∧ (r.Id ≠ u.ID → r' = r))
          q.steps (orm.UpdateStep q f now u).2.steps
        ∧ (orm.UpdateStep q f now u).2.flows = q.flows
        ∧ (orm.UpdateStep q f now u).2.processes = q.processes) :=
  ⟨orm.InsertFlow_then_updates p pF fF wf usF hF,
   orm.InsertProc_then_updates p pP fP proc usP hP,
   orm.InsertStep_then_updates p pS fS step usS hS,
   fun q f now u => ⟨orm.UpdateFlow_frame q f now u, orm.UpdateFlow_others q f now u⟩,
   fun q f now u => ⟨orm.UpdateProc_frame q f now u, orm.UpdateProc_others q f now u⟩,
   fun q f now u => ⟨orm.UpdateStep_frame q f now u, orm.UpdateStep_others q f now u⟩⟩

/-- C2 at a concrete run: flow f1, process p1 and step s1 are inserted into
the empty database; the flow is then updated twice (suspended, then
finished), the process once, the step not at all. -/
theorem C2_update_is_partial_patch_witness :
    (orm.InsertFlow ⟨[], [], []⟩ none ⟨"f1", "F1", true, false, 1, some 9⟩
        = (none, ⟨[⟨"f1", "F1", 0, some 1, some 1, none⟩], [], []⟩)
      ∧ orm.InsertProc ⟨[], [], []⟩ none ⟨"p1", "P1", "f1", true, false, 2, some 8⟩
        = (none, ⟨[], [⟨"p1", "P1", 0, "f1", some 2, some 2, none⟩], []⟩)
      ∧ orm.InsertStep ⟨[], [], []⟩ none ⟨"s1", "S1", "p1", "f1", true, false, 3, some 7⟩
        = (none, ⟨[], [], [⟨"s1", "S1", 0, "p1", "f1", some 3, some 3, none⟩]⟩))
    ∧ ((∃ r ∈ (orm.UpdateFlowAll ⟨[⟨"f1", "F1", 0, some 1, some 1, none⟩], [], []⟩
          [(none, 5, ⟨"f1", "", true, true, 1, none⟩),
           (none, 9, ⟨"f1", "", true, false, 1, some 9⟩)]).flows, r.Id = "f1")
      ∧ ∀ r ∈ (orm.UpdateFlowAll ⟨[⟨"f1", "F1", 0, some 1, some 1, none⟩], [], []⟩
          [(none, 5, ⟨"f1", "", true, true, 1, none⟩),
           (none, 9, ⟨"f1", "", true, false, 1, some 9⟩)]).flows, r.Id = "f1" →
          r.Name = "F1" ∧ r.CreatedAt = some 1) :=
  ⟨⟨by decide, by decide, by decide⟩,
   (C2_update_is_partial_patch ⟨[], [], []⟩ ⟨[⟨"f1", "F1", 0, some 1, some 1, none⟩], [], []⟩
      ⟨[], [⟨"p1", "P1", 0, "f1", some 2, some 2, none⟩], []⟩
      ⟨[], [], [⟨"s1", "S1", 0, "p1", "f1", some 3, some 3, none⟩]⟩ none none none
      ⟨"f1", "F1", true, false, 1, some 9⟩ ⟨"p1", "P1", "f1", true, false, 2, some 8⟩
      ⟨"s1", "S1", "p1", "f1", true, false, 3, some 7⟩
      [(none, 5, ⟨"f1", "", true, true, 1, none⟩), (none, 9, ⟨"f1", "", true, false, 1, some 9⟩)]
      [(none, 8, ⟨"p1", "P1", "f1", true, false, 2, some 8⟩)] []
      (by decide) (by decide) (by decide)).1⟩

namespace orm

/-- An Update whose snapshot has no end time leaves every finished-time of
`flows` as it was. -/
theorem UpdateFlow_nil_end (q : persistence) (f : Option gorm.Error) (now : Time)
    (v : flow.WorkFlow) (h : v.EndTime = none) :
    (UpdateFlow q f now v).2.flows.map Flow.FinishedAt = q.flows.map Flow.FinishedAt := by
  cases f with
  | some e => rw [UpdateFlow_fault]
  | none =>
    rw [UpdateFlow_flows, List.map_map]
    apply List.map_congr_left
    intro r _
    by_cases hid : r.Id = v.ID <;> simp [hid, h]

/-- The same for `processes`. -/
theorem UpdateProc_nil_end (q : persistence) (f : Option gorm.Error) (now : Time)
    (v : flow.Process) (h : v.EndTime = none) :
    (UpdateProc q f now v).2.processes.map Process.FinishedAt
      = q.processes.map Process.FinishedAt := by
  cases f with
  | some e => rw [UpdateProc_fault]
  | none =>
    rw [UpdateProc_processes, List.map_map]
    apply List.map_congr_left
    intro r _
    by_cases hid : r.Id = v.ID <;> simp [hid, h]

/-- The same for `steps`. -/
theorem UpdateStep_nil_end (q : persistence) (f : Option gorm.Error) (now : Time)
    (v : flow.Step) (h : v.EndTime = none) :
    (UpdateStep q f now v).2.steps.map Step.FinishedAt = q.steps.map Step.FinishedAt := by
  cases f with
  | some e => rw [UpdateStep_fault]
  | none =>
    rw [UpdateStep_steps, List.map_map]
    apply List.map_congr_left
    intro r _
    by_cases hid : r.Id = v.ID <;> simp [hid, h]

end orm

/-- C3: a successful InsertFlow appends a row with status Begin whose
created-time and updated-time are the start time of the snapshot; an Update
that follows with success set, suspended not set and end time T turns exactly
that row into one with status Success and finished-time T; and an Update
(of a flow, process or step) whose snapshot has no end time leaves every
finished-time as it was. -/
theorem C3_insert_then_success_update (p p1 : orm.persistence) (fault : Option gorm.Error)
    (wf u : flow.WorkFlow) (now T : Time)
    (h : orm.InsertFlow p fault wf = (none, p1))
    (hid : u.ID = wf.ID) (hsuc : u.Success = true) (hsus : u.HasSuspend = false)
    (hend : u.EndTime = some T) :
    p1.flows = p.flows ++
        [(⟨wf.ID, wf.Name, orm.Begin, some wf.StartTime, some wf.StartTime, none⟩ : orm.Flow)]
    ∧ (orm.UpdateFlow p1 none now u).1 = none
    ∧ (orm.UpdateFlow p1 none now u).2.flows = p.flows ++
        [(⟨wf.ID, wf.Name, orm.Success, some wf.StartTime, some now, some T⟩ : orm.Flow)]
    ∧ (∀ (q : orm.persistence) (f : Option gorm.Error) (t : Time) (v : flow.WorkFlow),
        v.EndTime = none →
        (orm.UpdateFlow q f t v).2.flows.map orm.Flow.FinishedAt
          = q.flows.map orm.Flow.FinishedAt)
    ∧ (∀ (q : orm.persistence) (f : Option gorm.Error) (t : Time) (v : flow.Process),
        v.EndTime = none →
        (orm.UpdateProc q f t v).2.processes.map orm.Process.FinishedAt
          = q.processes.map orm.Process.FinishedAt)
    ∧ (∀ (q : orm.persistence) (f : Option gorm.Error) (t : Time) (v : flow.Step),
        v.EndTime = none →
        (orm.UpdateStep q f t v).2.steps.map orm.Step.FinishedAt
          = q.steps.map orm.Step.FinishedAt) := by
  obtain ⟨h1, h2, -, -⟩ := orm.InsertFlow_ok p p1 fault wf h
  refine ⟨h1, ?_, ?_, orm.UpdateFlow_nil_end, orm.UpdateProc_nil_end, orm.UpdateStep_nil_end⟩
  · simp [orm.UpdateFlow, gorm.Update]
  · rw [orm.UpdateFlow_flows, h1, List.map_append]
    congr 1
    · conv_rhs => rw [← List.map_id p.flows]
      apply List.map_congr_left
      intro r hr
      have := h2 r hr
      simp [hid, this]
    · simp [hid, hsuc, hsus, hend]

/-- C3 at scenario A of the spec: flow F1 is inserted into the empty database
with start time 1 and then updated at time 9 with success and end time 9. -/
theorem C3_insert_then_success_update_witness :
    orm.InsertFlow ⟨[], [], []⟩ none ⟨"f1", "F1", false, false, 1, none⟩
        = (none, ⟨[⟨"f1", "F1", 0, some 1, some 1, none⟩], [], []⟩)
    ∧ (orm.UpdateFlow ⟨[⟨"f1", "F1", 0, some 1, some 1, none⟩], [], []⟩ none 9
        ⟨"f1", "F1", true, false, 1, some 9⟩).2.flows
        = [] ++ [(⟨"f1", "F1", orm.Success, some 1, some 9, some 9⟩ : orm.Flow)] :=
  ⟨by decide,
   (C3_insert_then_success_update ⟨[], [], []⟩ ⟨[⟨"f1", "F1", 0, some 1, some 1, none⟩], [], []⟩
      none ⟨"f1", "F1", false, false, 1, none⟩ ⟨"f1", "F1", true, false, 1, some 9⟩ 9 9
      (by decide) rfl rfl rfl rfl).2.2.1⟩

namespace orm

/-- `InsertFlow` keeps every row that is in the table at its place. -/
theorem InsertFlow_getElem (p : persistence) (f : Option gorm.Error) (wf : flow.WorkFlow)
    (i : Nat) (r : Flow) (h : p.flows[i]? = some r) :
    (InsertFlow p f wf).2.flows[i]? = some r := by
  unfold InsertFlow gorm.Create
  cases f with
  | some e => simpa using h
  | none =>
    by_cases hd : (p.flows.any fun r => r.Id == wf.ID) = true
    · simpa [hd] using h
    · simp only [hd]
      have hi : i < p.flows.length := by
        by_contra hc
        rw [List.getElem?_eq_none (not_lt.mp hc)] at h
        cases h
      simpa [List.getElem?_append_left hi] using h

/-- `UpdateFlow` keeps every row at its place, with the same id, and with a
status that is the old one or one of Suspend, Success, Failure. -/
theorem UpdateFlow_getElem (p : persistence) (f : Option gorm.Error) (now : Time)
    (wf : flow.WorkFlow) (i : Nat) (r : Flow) (h : p.flows[i]? = some r) :
    ∃ r', (UpdateFlow p f now wf).2.flows[i]? = some r' ∧ r'.Id = r.Id
      ∧ (r'.Status = r.Status ∨ r'.Status = Suspend ∨ r'.Status = Success ∨ r'.Status = Failure) := by
  cases f with
  | some e => rw [UpdateFlow_fault]; exact ⟨r, h, rfl, Or.inl rfl⟩
  | none =>
    rw [UpdateFlow_flows, List.getElem?_map, h]
    refine ⟨_, rfl, ?_⟩
    by_cases hid : r.Id = wf.ID
    · cases wf.HasSuspend <;> cases wf.Success <;> simp [hid]
    · simp [hid]

/-- Along any sequence of inserts and updates a row of `flows` stays at its
place under its id; its status stays or becomes Suspend, Success or Failure,
and is not Begin again once it was not Begin. -/
theorem runFlow_getElem (cs : List (Call flow.WorkFlow)) :
    ∀ (p : persistence) (i : Nat) (r : Flow), p.flows[i]? = some r →
      ∃ r', (runFlow p cs).flows[i]? = some r' ∧ r'.Id = r.Id
        ∧ (r'.Status = r.Status ∨ r'.Status = Suspend ∨ r'.Status = Success ∨ r'.Status = Failure)
        ∧ (r.Status ≠ Begin → r'.Status ≠ Begin) := by
  induction cs with
  | nil => intro p i r h; exact ⟨r, h, rfl, Or.inl rfl, id⟩
  | cons c cs ih =>
    intro p i r h
    cases c with
    | Insert f wf =>
      exact ih _ i r (InsertFlow_getElem p f wf i r h)
    | Update f now wf =>
      obtain ⟨r1, h1, hid1, hs1⟩ := UpdateFlow_getElem p f now wf i r h
      obtain ⟨r2, h2, hid2, hs2, hb2⟩ := ih _ i r1 h1
      refine ⟨r2, h2, hid2.trans hid1, ?_, ?_⟩
      · rcases hs2 with hs2 | hs2
        · rw [hs2]; exact hs1
        · exact Or.inr hs2
      · intro hb
        apply hb2
        rcases hs1 with hs1 | hs1 | hs1 | hs1 <;> rw [hs1]
        · exact hb
        all_goals simp [Suspend, Success, Failure, Begin]

/-- `InsertProc` keeps every row that is in the table at its place. -/
theorem InsertProc_getElem (p : persistence) (f : Option gorm.Error) (proc : flow.Process)
    (i : Nat) (r : Process) (h : p.processes[i]? = some r) :
    (InsertProc p f proc).2.processes[i]? = some r := by
  unfold InsertProc gorm.Create
  cases f with
  | some e => simpa using h
  | none =>
    by_cases hd : (p.processes.any fun r => r.Id == proc.ID) = true
    · simpa [hd] using h
    · simp only [hd]
      have hi : i < p.processes.length := by
        by_contra hc
        rw [List.getElem?_eq_none (not_lt.mp hc)] at h
        cases h
      simpa [List.getElem?_append_left hi] using h

/-- `UpdateProc` keeps every row at its place, with the same id, and with a
status that is the old one or one of Suspend, Success, Failure. -/
theorem UpdateProc_getElem (p : persistence) (f : Option gorm.Error) (now : Time)
    (proc : flow.Process) (i : Nat) (r : Process) (h : p.processes[i]? = some r) :
    ∃ r', (UpdateProc p f now proc).2.processes[i]? = some r' ∧ r'.Id = r.Id
      ∧ (r'.Status = r.Status ∨ r'.Status = Suspend ∨ r'.Status = Success ∨ r'.Status = Failure) := by
  cases f with
  | some e => rw [UpdateProc_fault]; exact ⟨r, h, rfl, Or.inl rfl⟩
  | none =>
    rw [UpdateProc_processes, List.getElem?_map, h]
    refine ⟨_, rfl, ?_⟩
    by_cases hid : r.Id = proc.ID
    · cases proc.HasSuspend <;> cases proc.Success <;> simp [hid]
    · simp [hid]

/-- Along any sequence of inserts and updates a row of `processes` stays at its
place under its id; its status stays or becomes Suspend, Success or Failure,
and is not Begin again once it was not Begin. -/
theorem runProc_getElem (cs : List (Call flow.Process)) :
    ∀ (p : persistence) (i : Nat) (r : Process), p.processes[i]? = some r →
      ∃ r', (runProc p cs).processes[i]? = some r' ∧ r'.Id = r.Id
        ∧ (r'.Status = r.Status ∨ r'.Status = Suspend ∨ r'.Status = Success ∨ r'.Status = Failure)
        ∧ (r.Status ≠ Begin → r'.Status ≠ Begin) := by
  induction cs with
  | nil => intro p i r h; exact ⟨r, h, rfl, Or.inl rfl, id⟩
  | cons c cs ih =>
    intro p i r h
    cases c with
    | Insert f proc =>
      exact ih _ i r (InsertProc_getElem p f proc i r h)
    | Update f now proc =>
      obtain ⟨r1, h1, hid1, hs1⟩ := UpdateProc_getElem p f now proc i r h
      obtain ⟨r2, h2, hid2, hs2, hb2⟩ := ih _ i r1 h1
      refine ⟨r2, h2, hid2.trans hid1, ?_, ?_⟩
      · rcases hs2 with hs2 | hs2
        · rw [hs2]; exact hs1
        · exact Or.inr hs2
      · intro hb
        apply hb2
        rcases hs1 with hs1 | hs1 | hs1 | hs1 <;> rw [hs1]
        · exact hb
        all_goals simp [Suspend, Success, Failure, Begin]

/-- `InsertStep` keeps every row that is in the table at its place. -/
theorem InsertStep_getElem (p : persistence) (f : Option gorm.Error) (step : flow.Step)
    (i : Nat) (r : Step) (h : p.steps[i]? = some r) :
    (InsertStep p f step).2.steps[i]? = some r := by
  unfold InsertStep gorm.Create
  cases f with
  | some e => simpa using h
  | none =>
    by_cases hd : (p.steps.any fun r => r.Id == step.ID) = true
    · simpa [hd] using h
    · simp only [hd]
      have hi : i < p.steps.length := by
        by_contra hc
        rw [List.getElem?_eq_none (not_lt.mp hc)] at h
        cases h
      simpa [List.getElem?_append_left hi] using h

/-- `UpdateStep` keeps every row at its place, with the same id, and with a
status that is the old one or one of Suspend, Success, Failure. -/
theorem UpdateStep_getElem (p : persistence) (f : Option gorm.Error) (now : Time)
    (step : flow.Step) (i : Nat) (r : Step) (h : p.steps[i]? = some r) :
    ∃ r', (UpdateStep p f now step).2.steps[i]? = some r' ∧ r'.Id = r.Id
      ∧ (r'.Status = r.Status ∨ r'.Status = Suspend ∨ r'.Status = Success ∨ r'.Status = Failure) := by
  cases f with
  | some e => rw [UpdateStep_fault]; exact ⟨r, h, rfl, Or.inl rfl⟩
  | none =>
    rw [UpdateStep_steps, List.getElem?_map, h]
    refine ⟨_, rfl, ?_⟩
    by_cases hid : r.Id = step.ID
    · cases step.HasSuspend <;> cases step.Success <;> simp [hid]
    · simp [hid]

/-- Along any sequence of inserts and updates a row of `steps` stays at its
place under its id; its status stays or becomes Suspend, Success or Failure,
and is not Begin again once it was not Begin. -/
theorem runStep_getElem (cs : List (Call flow.Step)) :
    ∀ (p : persistence) (i : Nat) (r : Step), p.steps[i]? = some r →
      ∃ r', (runStep p cs).steps[i]? = some r' ∧ r'.Id = r.Id
        ∧ (r'.Status = r.Status ∨ r'.Status = Suspend ∨ r'.Status = Success ∨ r'.Status = Failure)
        ∧ (r.Status ≠ Begin → r'.Status ≠ Begin) := by
  induction cs with
  | nil => intro p i r h; exact ⟨r, h, rfl, Or.inl rfl, id⟩
  | cons c cs ih =>
    intro p i r h
    cases c with
    | Insert f step =>
      exact ih _ i r (InsertStep_getElem p f step i r h)
    | Update f now step =>
      obtain ⟨r1, h1, hid1, hs1⟩ := UpdateStep_getElem p f now step i r h
      obtain ⟨r2, h2, hid2, hs2, hb2⟩ := ih _ i r1 h1
      refine ⟨r2, h2, hid2.trans hid1, ?_, ?_⟩
      · rcases hs2 with hs2 | hs2
        · rw [hs2]; exact hs1
        · exact Or.inr hs2
      · intro hb
        apply hb2
        rcases hs1 with hs1 | hs1 | hs1 | hs1 <;> rw [hs1]
        · exact hb
        all_goals simp [Suspend, Success, Failure, Begin]

end orm

/-- C10, as stated, fails: flow f1 is inserted, an Update with success set
makes its status Success, and a later Update with success not set changes the
terminal status to Failure. -/
theorem C10_terminal_status_overwritten :
    (orm.runFlow ⟨[], [], []⟩
        [orm.Call.Insert none ⟨"f1", "F1", false, false, 1, none⟩,
         orm.Call.Update none 5 ⟨"f1", "F1", true, false, 1, some 5⟩]).flows
      = [⟨"f1", "F1", orm.Success, some 1, some 5, some 5⟩]
    ∧ (orm.runFlow ⟨[], [], []⟩
        [orm.Call.Insert none ⟨"f1", "F1", false, false, 1, none⟩,
         orm.Call.Update none 5 ⟨"f1", "F1", true, false, 1, some 5⟩,
         orm.Call.Update none 8 ⟨"f1", "F1", false, false, 1, some 8⟩]).flows
      = [⟨"f1", "F1", orm.Failure, some 1, some 8, some 8⟩] := by
  decide

/-- C10, amended: along every sequence of Insert and Update calls a row stays
at its place under its id, its status either stays or becomes one of Suspend,
Success, Failure, and a row that has left Begin never shows Begin again; an
Update that reaches the table writes the status of its own snapshot over
whatever status the row had, terminal or not.  Flow, Process and Step alike. -/
theorem C10_status_never_returns_to_begin (p : orm.persistence)
    (cF : List (orm.Call flow.WorkFlow)) (cP : List (orm.Call flow.Process))
    (cS : List (orm.Call flow.Step)) :
    (∀ (i : Nat) (r : orm.Flow), p.flows[i]? = some r →
      ∃ r', (orm.runFlow p cF).flows[i]? = some r' ∧ r'.Id = r.Id
        ∧ (r'.Status = r.Status ∨ r'.Status = orm.Suspend ∨ r'.Status = orm.Success
            ∨ r'.Status = orm.Failure)
        ∧ (r.Status ≠ orm.Begin → r'.Status ≠ orm.Begin))
    ∧ (∀ (i : Nat) (r : orm.Process), p.processes[i]? = some r →
      ∃ r', (orm.runProc p cP).processes[i]? = some r' ∧ r'.Id = r.Id
        ∧ (r'.Status = r.Status ∨ r'.Status = orm.Suspend ∨ r'.Status = orm.Success
            ∨ r'.Status = orm.Failure)
        ∧ (r.Status ≠ orm.Begin → r'.Status ≠ orm.Begin))
    ∧ (∀ (i : Nat) (r : orm.Step), p.steps[i]? = some r →
      ∃ r', (orm.runStep p cS).steps[i]? = some r' ∧ r'.Id = r.Id
        ∧ (r'.Status = r.Status ∨ r'.Status = orm.Suspend ∨ r'.Status = orm.Success
            ∨ r'.Status = orm.Failure)
        ∧ (r.Status ≠ orm.Begin → r'.Status ≠ orm.Begin))
    ∧ (∀ (now : Time) (u : flow.WorkFlow) (i : Nat) (r : orm.Flow),
        p.flows[i]? = some r → r.Id = u.ID →
        ∃ r', (orm.UpdateFlow p none now u).2.flows[i]? = some r' ∧ r'.Status =
          (if u.HasSuspend then orm.Suspend else if u.Success then orm.Success else orm.Failure))
    ∧ (∀ (now : Time) (u : flow.Process) (i : Nat) (r : orm.Process),
        p.processes[i]? = some r → r.Id = u.ID →
        ∃ r', (orm.UpdateProc p none now u).2.processes[i]? = some r' ∧ r'.Status =
          (if u.HasSuspend then orm.Suspend else if u.Success then orm.Success else orm.Failure))
    ∧ (∀ (now : Time) (u : flow.Step) (i : Nat) (r : orm.Step),
        p.steps[i]? = some r → r.Id = u.ID →
        ∃ r', (orm.UpdateStep p none now u).2.steps[i]? = some r' ∧ r'.Status =
          (if u.HasSuspend then orm.Suspend else if u.Success then orm.Success else orm.Failure)) := by
  refine ⟨orm.runFlow_getElem cF p, orm.runProc_getElem cP p, orm.runStep_getElem cS p, ?_, ?_, ?_⟩
  · intro now u i r h hid
    rw [orm.UpdateFlow_flows, List.getElem?_map, h]
    exact ⟨_, rfl, by simp [hid]⟩
  · intro now u i r h hid
    rw [orm.UpdateProc_processes, List.getElem?_map, h]
    exact ⟨_, rfl, by simp [hid]⟩
  · intro now u i r h hid
    rw [orm.UpdateStep_steps, List.getElem?_map, h]
    exact ⟨_, rfl, by simp [hid]⟩

/-- C10, amended, at a concrete run: the suspended flow f1 (status Suspend)
goes through a failing insert of the same id and two updates; its row is still
the first of the table and its status is not Begin. -/
theorem C10_status_never_returns_to_begin_witness :
    (⟨[⟨"f1", "F1", 1, some 1, some 3, none⟩], [], []⟩ : orm.persistence).flows[0]?
        = some ⟨"f1", "F1", 1, some 1, some 3, none⟩
    ∧ ∃ r', (orm.runFlow ⟨[⟨"f1", "F1", 1, some 1, some 3, none⟩], [], []⟩
          [orm.Call.Insert none ⟨"f1", "F1", false, false, 4, none⟩,
           orm.Call.Update none 5 ⟨"f1", "F1", true, false, 1, some 5⟩,
           orm.Call.Update none 8 ⟨"f1", "F1", false, false, 1, some 8⟩]).flows[0]? = some r'
        ∧ r'.Id = "f1"
        ∧ (r'.Status = 1 ∨ r'.Status = orm.Suspend ∨ r'.Status = orm.Success
            ∨ r'.Status = orm.Failure)
        ∧ ((1 : Int) ≠ orm.Begin → r'.Status ≠ orm.Begin) :=
  ⟨rfl,
   (C10_status_never_returns_to_begin ⟨[⟨"f1", "F1", 1, some 1, some 3, none⟩], [], []⟩
      [orm.Call.Insert none ⟨"f1", "F1", false, false, 4, none⟩,
       orm.Call.Update none 5 ⟨"f1", "F1", true, false, 1, some 5⟩,
       orm.Call.Update none 8 ⟨"f1", "F1", false, false, 1, some 8⟩] [] []).1 0
      ⟨"f1", "F1", 1, some 1, some 3, none⟩ rfl⟩

/-! ## Theorems: the checkpoint store -/

namespace suspendPlugin

/-- The three statements of `SaveCheckpointAndRecord`, one after the other:
what the call returns and what it leaves, by the step that fails first. -/
theorem SaveCheckpointAndRecord_eq (s : suspendPlugin) (faults : Faults) (now : Time)
    (checkpoints : List flow.CheckPoint) (record : flow.RecoverRecord) :
    s.SaveCheckpointAndRecord faults now checkpoints record =
      match gorm.CreateInBatch Checkpoint.Id faults.createCheckpoints s.committed.checkpoints
          (checkpoints.map (Checkpoint.ofCheckPoint now)) with
      | (some e, _) => (Outcome.panicked e, { committed := s.committed, staged := none })
      | (none, t1) =>
        match gorm.Create RecoverRecord.RecoverId faults.createRecord s.committed.recover_records
            (RecoverRecord.ofRecoverRecord now record) with
        | (some e, _) => (Outcome.returned (some e), { committed := s.committed, staged := none })
        | (none, t2) =>
          match faults.commit with
          | some e => (Outcome.returned (some e), { committed := s.committed, staged := none })
          | none => (Outcome.returned none,
              { committed := { checkpoints := t1, recover_records := t2 }, staged := none }) := by
  have hrow : (fun cp : flow.CheckPoint => (⟨cp.Id, cp.Uid, cp.Name, cp.RecoverId, cp.ParentUid,
      cp.RootUid, cp.Scope, cp.Snapshot, now, now⟩ : Checkpoint))
      = Checkpoint.ofCheckPoint now := rfl
  simp only [SaveCheckpointAndRecord, Begin, CreateCheckpoints, hrow]
  rcases h1 : gorm.CreateInBatch Checkpoint.Id faults.createCheckpoints s.committed.checkpoints
      (checkpoints.map (Checkpoint.ofCheckPoint now)) with ⟨e1, t1⟩
  cases e1 with
  | some e => simp [Rollback]
  | none =>
    simp only [CreateRecord]
    have hrec : (⟨record.RootUid, record.RecoverId, record.Status, record.Name, now, now⟩
        : RecoverRecord) = RecoverRecord.ofRecoverRecord now record := rfl
    rw [hrec]
    rcases h2 : gorm.Create RecoverRecord.RecoverId faults.createRecord s.committed.recover_records
        (RecoverRecord.ofRecoverRecord now record) with ⟨e2, t2⟩
    cases e2 with
    | some e => simp [Rollback]
    | none =>
      simp only [Commit]
      cases h3 : faults.commit with
      | some e => simp [Rollback]
      | none => simp

end suspendPlugin

namespace suspendPlugin

/-- A `SaveCheckpointAndRecord` that does not return nil leaves the committed
tables as they were and no transaction open. -/
theorem SaveCheckpointAndRecord_failed (s : suspendPlugin) (faults : Faults) (now : Time)
    (checkpoints : List flow.CheckPoint) (record : flow.RecoverRecord)
    (h : (s.SaveCheckpointAndRecord faults now checkpoints record).1 ≠ Outcome.returned none) :
    (s.SaveCheckpointAndRecord faults now checkpoints record).2.committed = s.committed
      ∧ (s.SaveCheckpointAndRecord faults now checkpoints record).2.staged = none := by
  rw [SaveCheckpointAndRecord_eq] at h ⊢
  generalize gorm.CreateInBatch Checkpoint.Id faults.createCheckpoints s.committed.checkpoints
      (checkpoints.map (Checkpoint.ofCheckPoint now)) = r1 at h ⊢
  generalize gorm.Create RecoverRecord.RecoverId faults.createRecord s.committed.recover_records
      (RecoverRecord.ofRecoverRecord now record) = r2 at h ⊢
  generalize faults.commit = r3 at h ⊢
  rcases r1 with ⟨_ | e1, t1⟩ <;> rcases r2 with ⟨_ | e2, t2⟩ <;> rcases r3 with _ | e3 <;>
    simp at h ⊢

end suspendPlugin

/-- C4: when SaveCheckpointAndRecord does not complete successfully, whatever
step failed (the checkpoint insert, the record insert after the checkpoints
were staged, or the commit), the committed tables are those from before the
call and no transaction is left open; ListCheckpoints and GetLatestRecord
answer after the call as they did before it. -/
theorem C4_save_all_or_nothing (s : suspendPlugin) (faults : Faults) (now : Time)
    (checkpoints : List flow.CheckPoint) (record : flow.RecoverRecord)
    (h : (s.SaveCheckpointAndRecord faults now checkpoints record).1 ≠ Outcome.returned none) :
    (s.SaveCheckpointAndRecord faults now checkpoints record).2.committed = s.committed
    ∧ (s.SaveCheckpointAndRecord faults now checkpoints record).2.staged = none
    ∧ (∀ (f : Option gorm.Error) (recoverId : String),
        (s.SaveCheckpointAndRecord faults now checkpoints record).2.ListCheckpoints f recoverId
          = s.ListCheckpoints f recoverId)
    ∧ (∀ (f : Option gorm.Error) (rootUid : String),
        (s.SaveCheckpointAndRecord faults now checkpoints record).2.GetLatestRecord f rootUid
          = s.GetLatestRecord f rootUid) := by
  have hc := suspendPlugin.SaveCheckpointAndRecord_failed s faults now checkpoints record h
  refine ⟨hc.1, hc.2, ?_, ?_⟩
  · intro f recoverId
    simp only [suspendPlugin.ListCheckpoints, hc.1]
  · intro f rootUid
    simp only [suspendPlugin.GetLatestRecord, hc.1]

/-- C4 at a concrete failure between the two inserts: the record R1 is already
stored, so after checkpoint c1 was staged the record insert is refused. -/
theorem C4_save_all_or_nothing_witness :
    (suspendPlugin.SaveCheckpointAndRecord ⟨⟨[], [⟨"u1", "R1", 0, "n", 1, 1⟩]⟩, none⟩ Faults.none 7
        [⟨"c1", "u1", "n", "R1", "", "u1", 0, [1, 2]⟩] ⟨"u1", "R1", 0, "n"⟩).1
        ≠ Outcome.returned none
    ∧ (suspendPlugin.SaveCheckpointAndRecord ⟨⟨[], [⟨"u1", "R1", 0, "n", 1, 1⟩]⟩, none⟩ Faults.none 7
        [⟨"c1", "u1", "n", "R1", "", "u1", 0, [1, 2]⟩] ⟨"u1", "R1", 0, "n"⟩).2.committed
        = ⟨[], [⟨"u1", "R1", 0, "n", 1, 1⟩]⟩ :=
  ⟨by decide,
   (C4_save_all_or_nothing ⟨⟨[], [⟨"u1", "R1", 0, "n", 1, 1⟩]⟩, none⟩ Faults.none 7
      [⟨"c1", "u1", "n", "R1", "", "u1", 0, [1, 2]⟩] ⟨"u1", "R1", 0, "n"⟩ (by decide)).1⟩

namespace gorm

/-- The duplicate test is false exactly on lists without repetition. -/
theorem hasDuplicate_eq_false (ks : List String) : hasDuplicate ks = false ↔ ks.Nodup := by
  induction ks with
  | nil => simp [hasDuplicate]
  | cons k ks ih => simp [hasDuplicate, ih]

/-- A `Create` that reports no error met no fault, found the key free and
appended the row. -/
theorem Create_ok {α : Type} (key : α → String) (fault : Option Error) (table table' : List α)
    (row : α) (h : Create key fault table row = (none, table')) :
    fault = none ∧ (∀ r ∈ table, key r ≠ key row) ∧ table' = table ++ [row] := by
  unfold Create at h
  cases fault with
  | some e => simp at h
  | none =>
    by_cases hd : (table.any fun r => key r == key row) = true
    · simp [hd] at h
    · simp only [hd, Bool.false_eq_true, if_false, Prod.mk.injEq, true_and] at h
      refine ⟨rfl, ?_, h.symm⟩
      intro r hr hk
      exact hd (List.any_eq_true.mpr ⟨r, hr, by simp [hk]⟩)

/-- With no fault and a free key, `Create` appends the row. -/
theorem Create_free {α : Type} (key : α → String) (table : List α) (row : α)
    (h : ∀ r ∈ table, key r ≠ key row) :
    Create key none table row = (none, table ++ [row]) := by
  unfold Create
  have hd : (table.any fun r => key r == key row) = false := by
    rw [Bool.eq_false_iff]
    intro hc
    obtain ⟨r, hr, hk⟩ := List.any_eq_true.mp hc
    exact h r hr (by simpa using hk)
  simp [hd]

/-- A batch `Create` that reports no error was given at least one row, met no
fault, found all keys distinct and free, and appended the rows. -/
theorem CreateInBatch_ok {α : Type} (key : α → String) (fault : Option Error)
    (table table' rows : List α) (h : CreateInBatch key fault table rows = (none, table')) :
    rows ≠ [] ∧ fault = none ∧ (rows.map key).Nodup
      ∧ (∀ r ∈ rows, ∀ t ∈ table, key t ≠ key r) ∧ table' = table ++ rows := by
  unfold CreateInBatch at h
  cases rows with
  | nil => simp at h
  | cons r0 rs =>
    simp only [List.isEmpty_cons, Bool.false_eq_true, if_false] at h
    cases fault with
    | some e => simp at h
    | none =>
      simp only at h
      split at h
      · simp at h
      · rename_i hc
        simp only [Prod.mk.injEq, true_and] at h
        simp only [Bool.or_eq_true, not_or, Bool.not_eq_true] at hc
        refine ⟨by simp, rfl, (hasDuplicate_eq_false _).mp hc.1, ?_, h.symm⟩
        intro r hr t ht hk
        have : ((r0 :: rs).any fun r => table.any fun t => key t == key r) = true :=
          List.any_eq_true.mpr ⟨r, hr, List.any_eq_true.mpr ⟨t, ht, by simp [hk]⟩⟩
        rw [hc.2] at this
        cases this

/-- With no fault, at least one row and distinct free keys, the batch
`Create` appends the rows. -/
theorem CreateInBatch_free {α : Type} (key : α → String) (table rows : List α)
    (hne : rows ≠ []) (hnd : (rows.map key).Nodup)
    (hfree : ∀ r ∈ rows, ∀ t ∈ table, key t ≠ key r) :
    CreateInBatch key none table rows = (none, table ++ rows) := by
  unfold CreateInBatch
  have h1 : rows.isEmpty = false := by
    cases rows with
    | nil => exact absurd rfl hne
    | cons a l => rfl
  have h2 : hasDuplicate (rows.map key) = false := (hasDuplicate_eq_false _).mpr hnd
  have h3 : (rows.any fun r => table.any fun t => key t == key r) = false := by
    rw [Bool.eq_false_iff]
    intro hc
    obtain ⟨r, hr, hk⟩ := List.any_eq_true.mp hc
    obtain ⟨t, ht, hk⟩ := List.any_eq_true.mp hk
    exact hfree r hr t ht (by simpa using hk)
  simp [h1, h2, h3]

/-- The row picked by `leastByKey` is one of the rows. -/
theorem leastByKey_mem {α : Type} (key : α → String) (rows : List α) (r : α)
    (h : leastByKey key rows = some r) : r ∈ rows := by
  induction rows generalizing r with
  | nil => simp [leastByKey] at h
  | cons a l ih =>
    unfold leastByKey at h
    cases hl : leastByKey key l with
    | none => simp [hl] at h; simp [h]
    | some m =>
      simp only [hl] at h
      split at h
      · simp at h; simp [h]
      · simp at h; subst h; exact List.mem_cons_of_mem _ (ih m hl)

/-- `leastByKey` finds nothing only among no rows. -/
theorem leastByKey_eq_none {α : Type} (key : α → String) (rows : List α) :
    leastByKey key rows = none ↔ rows = [] := by
  cases rows with
  | nil => simp [leastByKey]
  | cons a l =>
    unfold leastByKey
    cases leastByKey key l with
    | none => simp
    | some m => simp only; split <;> simp

end gorm

namespace suspendPlugin

/-- A `SaveCheckpointAndRecord` that returns no error: no step met a fault,
there was at least one checkpoint, all keys were distinct and free, and the
committed tables gained the checkpoint rows and the record row. -/
theorem SaveCheckpointAndRecord_ok (s : suspendPlugin) (faults : Faults) (now : Time)
    (checkpoints : List flow.CheckPoint) (record : flow.RecoverRecord)
    (h : (s.SaveCheckpointAndRecord faults now checkpoints record).1 = Outcome.returned none) :
    checkpoints ≠ [] ∧ faults = Faults.none
      ∧ (checkpoints.map flow.CheckPoint.Id).Nodup
      ∧ (∀ cp ∈ checkpoints, ∀ c ∈ s.committed.checkpoints, c.Id ≠ cp.Id)
      ∧ (∀ r ∈ s.committed.recover_records, r.RecoverId ≠ record.RecoverId)
      ∧ (s.SaveCheckpointAndRecord faults now checkpoints record).2 =
          { committed :=
              { checkpoints := s.committed.checkpoints ++ checkpoints.map (Checkpoint.ofCheckPoint now)
                recover_records :=
                  s.committed.recover_records ++ [RecoverRecord.ofRecoverRecord now record] }
            staged := none } := by
  rw [SaveCheckpointAndRecord_eq] at h ⊢
  generalize h1 : gorm.CreateInBatch Checkpoint.Id faults.createCheckpoints s.committed.checkpoints
      (checkpoints.map (Checkpoint.ofCheckPoint now)) = r1 at h ⊢
  generalize h2 : gorm.Create RecoverRecord.RecoverId faults.createRecord
      s.committed.recover_records (RecoverRecord.ofRecoverRecord now record) = r2 at h ⊢
  generalize h3 : faults.commit = r3 at h ⊢
  rcases r1 with ⟨_ | e1, t1⟩ <;> rcases r2 with ⟨_ | e2, t2⟩ <;> rcases r3 with _ | e3 <;>
    simp at h ⊢
  obtain ⟨a1, a2, a3, a4, a5⟩ := gorm.CreateInBatch_ok _ _ _ _ _ h1
  obtain ⟨b1, b2, b3⟩ := gorm.Create_ok _ _ _ _ _ h2
  refine ⟨?_, ?_, ?_, ?_, ?_, a5, b3⟩
  · simpa using a1
  · cases faults
    simp only [Faults.none] at *
    simp [a2, b1, h3]
  · have : (checkpoints.map (Checkpoint.ofCheckPoint now)).map Checkpoint.Id
        = checkpoints.map flow.CheckPoint.Id := by
      rw [List.map_map]; rfl
    rw [← this]; exact a3
  · intro cp hcp c hc
    exact a4 (Checkpoint.ofCheckPoint now cp) (List.mem_map.mpr ⟨cp, hcp, rfl⟩) c hc
  · intro r hr
    exact b2 r hr

/-- How `SaveCheckpointAndRecord` ends, by the first statement that fails: a
failed checkpoint insert makes it panic with the error; a failed record insert
or commit makes it return the error; with no failure it returns nil. -/
theorem SaveCheckpointAndRecord_outcome (s : suspendPlugin) (faults : Faults) (now : Time)
    (checkpoints : List flow.CheckPoint) (record : flow.RecoverRecord) :
    (s.SaveCheckpointAndRecord faults now checkpoints record).1 =
      match (gorm.CreateInBatch Checkpoint.Id faults.createCheckpoints s.committed.checkpoints
          (checkpoints.map (Checkpoint.ofCheckPoint now))).1 with
      | some e => Outcome.panicked e
      | none =>
        match (gorm.Create RecoverRecord.RecoverId faults.createRecord s.committed.recover_records
            (RecoverRecord.ofRecoverRecord now record)).1 with
        | some e => Outcome.returned (some e)
        | none => Outcome.returned faults.commit := by
  rw [SaveCheckpointAndRecord_eq]
  generalize gorm.CreateInBatch Checkpoint.Id faults.createCheckpoints s.committed.checkpoints
      (checkpoints.map (Checkpoint.ofCheckPoint now)) = r1
  generalize gorm.Create RecoverRecord.RecoverId faults.createRecord
      s.committed.recover_records (RecoverRecord.ofRecoverRecord now record) = r2
  generalize faults.commit = r3
  rcases r1 with ⟨_ | e1, t1⟩ <;> rcases r2 with ⟨_ | e2, t2⟩ <;> rcases r3 with _ | e3 <;> rfl

end suspendPlugin

/-- C5, the code at failing inputs: when the checkpoint insert fails, because
checkpoint c1 is already stored or because the driver reports an error,
SaveCheckpointAndRecord does not return the error but panics with it (after
the rollback); a failed record insert and a failed commit are returned. -/
theorem C5_checkpoint_insert_failure_panics :
    suspendPlugin.SaveCheckpointAndRecord
        ⟨⟨[⟨"c1", "u1", "n", "R1", "", "u1", 0, [1, 2], 1, 1⟩], [⟨"u1", "R1", 0, "n", 1, 1⟩]⟩, none⟩
        Faults.none 7 [⟨"c1", "u1", "n", "R2", "", "u1", 0, [3]⟩] ⟨"u1", "R2", 0, "n"⟩
      = (Outcome.panicked gorm.Error.ErrDuplicatedKey,
         ⟨⟨[⟨"c1", "u1", "n", "R1", "", "u1", 0, [1, 2], 1, 1⟩], [⟨"u1", "R1", 0, "n", 1, 1⟩]⟩, none⟩)
    ∧ (∀ e : gorm.Error, (suspendPlugin.SaveCheckpointAndRecord suspendPlugin.empty
        ⟨some e, none, none⟩ 7 [⟨"c1", "u1", "n", "R1", "", "u1", 0, [1, 2]⟩] ⟨"u1", "R1", 0, "n"⟩).1
      = Outcome.panicked e)
    ∧ (∀ e : gorm.Error, (suspendPlugin.SaveCheckpointAndRecord suspendPlugin.empty
        ⟨none, some e, none⟩ 7 [⟨"c1", "u1", "n", "R1", "", "u1", 0, [1, 2]⟩] ⟨"u1", "R1", 0, "n"⟩).1
      = Outcome.returned (some e))
    ∧ (∀ e : gorm.Error, (suspendPlugin.SaveCheckpointAndRecord suspendPlugin.empty
        ⟨none, none, some e⟩ 7 [⟨"c1", "u1", "n", "R1", "", "u1", 0, [1, 2]⟩] ⟨"u1", "R1", 0, "n"⟩).1
      = Outcome.returned (some e)) := by
  refine ⟨by decide, fun e => ?_, fun e => ?_, fun e => ?_⟩ <;>
    simp [suspendPlugin.SaveCheckpointAndRecord_outcome, gorm.CreateInBatch, gorm.Create,
      suspendPlugin.empty, gorm.hasDuplicate]

/-- C6, as stated, fails for N = 0: with the empty checkpoint list on the
empty database the batch insert is refused (empty slice), the call does not
return nil and the record row is not stored. -/
theorem C6_empty_checkpoint_list_rejected :
    suspendPlugin.SaveCheckpointAndRecord suspendPlugin.empty Faults.none 7 []
        ⟨"u1", "R1", 0, "n"⟩
      = (Outcome.panicked gorm.Error.ErrEmptySlice, suspendPlugin.empty) := by
  decide

/-- C6, amended: for every list of N ≥ 1 checkpoints, when the driver reports
no fault and no key conflicts (the checkpoint ids are pairwise distinct and
not stored yet, the recover-id of the record is not stored yet),
SaveCheckpointAndRecord returns nil and the committed tables gain exactly the
N checkpoint rows and exactly one recovery-record row. -/
theorem C6_save_persists_all_rows (s : suspendPlugin) (now : Time)
    (checkpoints : List flow.CheckPoint) (record : flow.RecoverRecord)
    (hne : checkpoints ≠ [])
    (hnd : (checkpoints.map flow.CheckPoint.Id).Nodup)
    (hfree : ∀ cp ∈ checkpoints, ∀ c ∈ s.committed.checkpoints, c.Id ≠ cp.Id)
    (hrec : ∀ r ∈ s.committed.recover_records, r.RecoverId ≠ record.RecoverId) :
    (s.SaveCheckpointAndRecord Faults.none now checkpoints record).1 = Outcome.returned none
    ∧ (s.SaveCheckpointAndRecord Faults.none now checkpoints record).2.committed.checkpoints
        = s.committed.checkpoints ++ checkpoints.map (Checkpoint.ofCheckPoint now)
    ∧ (s.SaveCheckpointAndRecord Faults.none now checkpoints record).2.committed.checkpoints.length
        = s.committed.checkpoints.length + checkpoints.length
    ∧ (s.SaveCheckpointAndRecord Faults.none now checkpoints record).2.committed.recover_records
        = s.committed.recover_records ++ [RecoverRecord.ofRecoverRecord now record]
    ∧ (s.SaveCheckpointAndRecord Faults.none now checkpoints record).2.committed.recover_records.length
        = s.committed.recover_records.length + 1 := by
  have h1 : gorm.CreateInBatch Checkpoint.Id none s.committed.checkpoints
      (checkpoints.map (Checkpoint.ofCheckPoint now))
      = (none, s.committed.checkpoints ++ checkpoints.map (Checkpoint.ofCheckPoint now)) := by
    apply gorm.CreateInBatch_free
    · simpa using hne
    · have : (checkpoints.map (Checkpoint.ofCheckPoint now)).map Checkpoint.Id
          = checkpoints.map flow.CheckPoint.Id := by
        rw [List.map_map]; rfl
      rw [this]; exact hnd
    · intro r hr t ht
      obtain ⟨cp, hcp, rfl⟩ := List.mem_map.mp hr
      exact hfree cp hcp t ht
  have h2 : gorm.Create RecoverRecord.RecoverId none s.committed.recover_records
      (RecoverRecord.ofRecoverRecord now record)
      = (none, s.committed.recover_records ++ [RecoverRecord.ofRecoverRecord now record]) :=
    gorm.Create_free _ _ _ (fun r hr => hrec r hr)
  have h : s.SaveCheckpointAndRecord Faults.none now checkpoints record
      = (Outcome.returned none,
          { committed :=
              { checkpoints := s.committed.checkpoints ++ checkpoints.map (Checkpoint.ofCheckPoint now)
                recover_records :=
                  s.committed.recover_records ++ [RecoverRecord.ofRecoverRecord now record] }
            staged := none }) := by
    rw [suspendPlugin.SaveCheckpointAndRecord_eq]
    simp only [Faults.none, h1, h2]
  rw [h]
  simp

/-- C6, amended, at scenario C of the spec: three checkpoints and their record
are saved under recover-id R1 into the empty database. -/
theorem C6_save_persists_all_rows_witness :
    ([⟨"c1", "u1", "flow", "R1", "", "u1", 0, [1, 2]⟩, ⟨"c2", "u2", "proc", "R1", "u1", "u1", 1, []⟩,
        ⟨"c3", "u3", "step", "R1", "u2", "u1", 2, [255, 0]⟩] : List flow.CheckPoint) ≠ []
    ∧ (suspendPlugin.SaveCheckpointAndRecord suspendPlugin.empty Faults.none 7
        [⟨"c1", "u1", "flow", "R1", "", "u1", 0, [1, 2]⟩, ⟨"c2", "u2", "proc", "R1", "u1", "u1", 1, []⟩,
          ⟨"c3", "u3", "step", "R1", "u2", "u1", 2, [255, 0]⟩]
        ⟨"u1", "R1", 0, "flow"⟩).1 = Outcome.returned none
    ∧ (suspendPlugin.SaveCheckpointAndRecord suspendPlugin.empty Faults.none 7
        [⟨"c1", "u1", "flow", "R1", "", "u1", 0, [1, 2]⟩, ⟨"c2", "u2", "proc", "R1", "u1", "u1", 1, []⟩,
          ⟨"c3", "u3", "step", "R1", "u2", "u1", 2, [255, 0]⟩]
        ⟨"u1", "R1", 0, "flow"⟩).2.committed.checkpoints.length
        = suspendPlugin.empty.committed.checkpoints.length + 3 :=
  have h := C6_save_persists_all_rows suspendPlugin.empty 7
      [⟨"c1", "u1", "flow", "R1", "", "u1", 0, [1, 2]⟩, ⟨"c2", "u2", "proc", "R1", "u1", "u1", 1, []⟩,
        ⟨"c3", "u3", "step", "R1", "u2", "u1", 2, [255, 0]⟩]
      ⟨"u1", "R1", 0, "flow"⟩ (by decide) (by decide) (by decide) (by decide)
  ⟨by decide, h.1, h.2.2.1⟩

/-- C7: after a successful SaveCheckpointAndRecord of checkpoints that all
carry recover-id R, into a database that held no checkpoint with recover-id R,
ListCheckpoints(R) returns no error and, up to order, exactly the checkpoints
passed in, equal in id, uid, name, recover-id, parent uid, root uid, scope
and snapshot bytes; every row it returns has recover-id R. -/
theorem C7_list_checkpoints_round_trip (s : suspendPlugin) (faults : Faults) (now : Time)
    (checkpoints : List flow.CheckPoint) (record : flow.RecoverRecord) (R : String)
    (hok : (s.SaveCheckpointAndRecord faults now checkpoints record).1 = Outcome.returned none)
    (hR : ∀ cp ∈ checkpoints, cp.RecoverId = R)
    (hfresh : ∀ c ∈ s.committed.checkpoints, c.RecoverId ≠ R) :
    ((s.SaveCheckpointAndRecord faults now checkpoints record).2.ListCheckpoints none R).2 = none
    ∧ List.Perm
        (((s.SaveCheckpointAndRecord faults now checkpoints record).2.ListCheckpoints none R).1.map
          Checkpoint.asCheckPoint)
        checkpoints
    ∧ ∀ c ∈ ((s.SaveCheckpointAndRecord faults now checkpoints record).2.ListCheckpoints none R).1,
        c.RecoverId = R := by
  obtain ⟨-, -, -, -, -, hs⟩ := suspendPlugin.SaveCheckpointAndRecord_ok s faults now checkpoints record hok
  rw [hs]
  have hold : s.committed.checkpoints.filter (fun c : Checkpoint => c.RecoverId == R) = [] := by
    rw [List.filter_eq_nil_iff]
    intro c hc
    simpa using hfresh c hc
  have hnew : (checkpoints.map (Checkpoint.ofCheckPoint now)).filter
      (fun c : Checkpoint => c.RecoverId == R) = checkpoints.map (Checkpoint.ofCheckPoint now) := by
    rw [List.filter_eq_self]
    intro c hc
    obtain ⟨cp, hcp, rfl⟩ := List.mem_map.mp hc
    simpa [Checkpoint.ofCheckPoint] using hR cp hcp
  have hlist : suspendPlugin.ListCheckpoints
      { committed :=
          { checkpoints := s.committed.checkpoints ++ checkpoints.map (Checkpoint.ofCheckPoint now)
            recover_records :=
              s.committed.recover_records ++ [RecoverRecord.ofRecoverRecord now record] }
        staged := none } none R = (checkpoints.map (Checkpoint.ofCheckPoint now), none) := by
    simp only [suspendPlugin.ListCheckpoints, gorm.Find, List.filter_append, hold, hnew,
      List.nil_append]
  rw [hlist]
  refine ⟨rfl, ?_, ?_⟩
  · have : (checkpoints.map (Checkpoint.ofCheckPoint now)).map Checkpoint.asCheckPoint
        = checkpoints := by
      rw [List.map_map]
      conv_rhs => rw [← List.map_id checkpoints]
      rfl
    simp only [this]
    exact List.Perm.refl _
  · intro c hc
    obtain ⟨cp, hcp, rfl⟩ := List.mem_map.mp hc
    exact hR cp hcp

/-- C7 at scenario C of the spec, on a database that already holds a
checkpoint of recover-id R0: the three checkpoints saved under R1 are what
ListCheckpoints(R1) returns. -/
theorem C7_list_checkpoints_round_trip_witness :
    (suspendPlugin.SaveCheckpointAndRecord
        ⟨⟨[⟨"c0", "u0", "old", "R0", "", "u0", 0, [9], 1, 1⟩], [⟨"u0", "R0", 1, "old", 1, 1⟩]⟩, none⟩
        Faults.none 7
        [⟨"c1", "u1", "flow", "R1", "", "u1", 0, [1, 2]⟩, ⟨"c2", "u2", "proc", "R1", "u1", "u1", 1, []⟩,
          ⟨"c3", "u3", "step", "R1", "u2", "u1", 2, [255, 0]⟩]
        ⟨"u1", "R1", 0, "flow"⟩).1 = Outcome.returned none
    ∧ List.Perm
        (((suspendPlugin.SaveCheckpointAndRecord
          ⟨⟨[⟨"c0", "u0", "old", "R0", "", "u0", 0, [9], 1, 1⟩], [⟨"u0", "R0", 1, "old", 1, 1⟩]⟩, none⟩
          Faults.none 7
          [⟨"c1", "u1", "flow", "R1", "", "u1", 0, [1, 2]⟩, ⟨"c2", "u2", "proc", "R1", "u1", "u1", 1, []⟩,
            ⟨"c3", "u3", "step", "R1", "u2", "u1", 2, [255, 0]⟩]
          ⟨"u1", "R1", 0, "flow"⟩).2.ListCheckpoints none "R1").1.map Checkpoint.asCheckPoint)
        [⟨"c1", "u1", "flow", "R1", "", "u1", 0, [1, 2]⟩, ⟨"c2", "u2", "proc", "R1", "u1", "u1", 1, []⟩,
          ⟨"c3", "u3", "step", "R1", "u2", "u1", 2, [255, 0]⟩] :=
  have h := C7_list_checkpoints_round_trip
      ⟨⟨[⟨"c0", "u0", "old", "R0", "", "u0", 0, [9], 1, 1⟩], [⟨"u0", "R0", 1, "old", 1, 1⟩]⟩, none⟩
      Faults.none 7
      [⟨"c1", "u1", "flow", "R1", "", "u1", 0, [1, 2]⟩, ⟨"c2", "u2", "proc", "R1", "u1", "u1", 1, []⟩,
        ⟨"c3", "u3", "step", "R1", "u2", "u1", 2, [255, 0]⟩]
      ⟨"u1", "R1", 0, "flow"⟩ "R1" (by decide) (by decide) (by decide)
  ⟨by decide, h.2.1⟩

/-! ## Theorems: the recovery coordinator -/

namespace suspendPlugin

/-- The table that an `UpdateRecordStatus` without fault leaves. -/
theorem UpdateRecordStatus_records (s : suspendPlugin) (now : Time) (record : flow.RecoverRecord) :
    (s.UpdateRecordStatus none now record).1 = none
    ∧ (s.UpdateRecordStatus none now record).2.committed.recover_records =
        s.committed.recover_records.map (fun r =>
          if r.RecoverId = record.RecoverId then
            { r with Status := record.Status, UpdatedAt := now }
          else r)
    ∧ (s.UpdateRecordStatus none now record).2.committed.checkpoints = s.committed.checkpoints
    ∧ (s.UpdateRecordStatus none now record).2.staged = s.staged := by
  simp only [UpdateRecordStatus, gorm.Update, beq_iff_eq, and_self]

/-- An `UpdateRecordStatus` that the driver fails changes nothing. -/
theorem UpdateRecordStatus_fault (s : suspendPlugin) (e : gorm.Error) (now : Time)
    (record : flow.RecoverRecord) : s.UpdateRecordStatus (some e) now record = (some e, s) := by
  simp [UpdateRecordStatus, gorm.Update]

/-- A `GetLatestRecord` that returns no error returns a stored record of the
root whose status is Idle. -/
theorem GetLatestRecord_found (s : suspendPlugin) (fault : Option gorm.Error) (rootUid : String)
    (r : RecoverRecord) (h : s.GetLatestRecord fault rootUid = (r, none)) :
    r ∈ s.committed.recover_records ∧ r.RootUid = rootUid ∧ r.Status = flow.RecoverIdle := by
  unfold GetLatestRecord gorm.First at h
  cases fault with
  | some e => simp at h
  | none =>
    simp only at h
    cases hl : gorm.leastByKey RecoverRecord.RecoverId (s.committed.recover_records.filter
        (fun r => r.RootUid == rootUid && r.Status == flow.RecoverIdle)) with
    | none => simp [hl] at h
    | some m =>
      simp only [hl, Prod.mk.injEq, and_true] at h
      subst h
      have := gorm.leastByKey_mem _ _ _ hl
      simpa [List.mem_filter] using this

/-- Without fault, `GetLatestRecord` reports not-found exactly when the root
has no stored record whose status is Idle; it reports no other error. -/
theorem GetLatestRecord_not_found (s : suspendPlugin) (rootUid : String) :
    ((s.GetLatestRecord none rootUid).2 = some gorm.Error.ErrRecordNotFound ↔
      ∀ x ∈ s.committed.recover_records, ¬ (x.RootUid = rootUid ∧ x.Status = flow.RecoverIdle))
    ∧ ((s.GetLatestRecord none rootUid).2 = none
        ∨ (s.GetLatestRecord none rootUid).2 = some gorm.Error.ErrRecordNotFound) := by
  unfold GetLatestRecord gorm.First
  simp only
  cases hl : gorm.leastByKey RecoverRecord.RecoverId (s.committed.recover_records.filter
      (fun r => r.RootUid == rootUid && r.Status == flow.RecoverIdle)) with
  | none =>
    have := (gorm.leastByKey_eq_none _ _).mp hl
    rw [List.filter_eq_nil_iff] at this
    simp only [true_iff, or_true, and_true]
    intro x hx hc
    exact this x hx (by simp [hc.1, hc.2])
  | some m =>
    have hm := gorm.leastByKey_mem _ _ _ hl
    simp only [List.mem_filter, Bool.and_eq_true, beq_iff_eq] at hm
    simp only [reduceCtorEq, false_iff, true_or, and_true, not_forall]
    exact ⟨m, hm.1, by simp [hm.2.1, hm.2.2]⟩

end suspendPlugin

/-- C8, as stated, fails: root u1 was suspended twice, so it has the Idle
records R1 and R2; GetLatestRecord returns R1, and after R1 was set to
Consumed the next GetLatestRecord does not report not-found but returns R2. -/
theorem C8_second_idle_record_returned :
    suspendPlugin.suspendedTwice.GetLatestRecord none "u1" = (⟨"u1", "R1", 0, "flow", 7, 7⟩, none)
    ∧ (suspendPlugin.suspendedTwice.UpdateRecordStatus none 9
        ⟨"u1", "R1", flow.RecoverConsumed, "flow"⟩).1 = none
    ∧ (suspendPlugin.suspendedTwice.UpdateRecordStatus none 9
        ⟨"u1", "R1", flow.RecoverConsumed, "flow"⟩).2.GetLatestRecord none "u1"
      = (⟨"u1", "R2", 0, "flow", 8, 8⟩, none) := by
  decide

/-- C8, amended: if GetLatestRecord(rootUid) returns a record r and the root
has no Idle record under another recover-id, then after UpdateRecordStatus
with r's recover-id and status Consumed the next GetLatestRecord(rootUid)
reports not-found, while the row of r is still stored, with its root uid and
name and with status Consumed, and the table has as many rows as before. -/
theorem C8_consumed_record_not_found (s : suspendPlugin) (rootUid : String) (r : RecoverRecord)
    (record : flow.RecoverRecord) (now : Time)
    (hget : s.GetLatestRecord none rootUid = (r, none))
    (hid : record.RecoverId = r.RecoverId)
    (hst : record.Status = flow.RecoverConsumed)
    (honly : ∀ x ∈ s.committed.recover_records,
      x.RootUid = rootUid → x.Status = flow.RecoverIdle → x.RecoverId = r.RecoverId) :
    (s.UpdateRecordStatus none now record).1 = none
    ∧ ((s.UpdateRecordStatus none now record).2.GetLatestRecord none rootUid).2
        = some gorm.Error.ErrRecordNotFound
    ∧ (∃ x ∈ (s.UpdateRecordStatus none now record).2.committed.recover_records,
        x.RecoverId = r.RecoverId ∧ x.RootUid = r.RootUid ∧ x.Name = r.Name
          ∧ x.Status = flow.RecoverConsumed)
    ∧ (s.UpdateRecordStatus none now record).2.committed.recover_records.length
        = s.committed.recover_records.length := by
  obtain ⟨u1, u2, -, -⟩ := suspendPlugin.UpdateRecordStatus_records s now record
  obtain ⟨hr, -, -⟩ := suspendPlugin.GetLatestRecord_found s none rootUid r hget
  refine ⟨u1, ?_, ?_, ?_⟩
  · rw [(suspendPlugin.GetLatestRecord_not_found _ rootUid).1, u2]
    intro x hx hc
    obtain ⟨x0, hx0, rfl⟩ := List.mem_map.mp hx
    by_cases hk : x0.RecoverId = record.RecoverId
    · simp [hk, hst, flow.RecoverConsumed, flow.RecoverIdle] at hc
    · simp only [hk, if_false] at hc
      exact hk ((honly x0 hx0 hc.1 hc.2).trans hid.symm)
  · rw [u2]
    refine ⟨_, List.mem_map.mpr ⟨r, hr, rfl⟩, ?_⟩
    simp [hid, hst]
  · rw [u2, List.length_map]

/-- C8, amended, at scenario C of the spec: root u1 was suspended once under
R1; GetLatestRecord returns that record, and once it is Consumed the root has
nothing to recover. -/
theorem C8_consumed_record_not_found_witness :
    (suspendPlugin.GetLatestRecord ⟨⟨[], [⟨"u1", "R1", 0, "flow", 7, 7⟩, ⟨"u2", "R2", 0, "other", 8, 8⟩]⟩,
        none⟩ none "u1" = (⟨"u1", "R1", 0, "flow", 7, 7⟩, none))
    ∧ ((suspendPlugin.UpdateRecordStatus
        ⟨⟨[], [⟨"u1", "R1", 0, "flow", 7, 7⟩, ⟨"u2", "R2", 0, "other", 8, 8⟩]⟩, none⟩ none 9
        ⟨"u1", "R1", 1, "flow"⟩).2.GetLatestRecord none "u1").2
        = some gorm.Error.ErrRecordNotFound :=
  ⟨by decide,
   (C8_consumed_record_not_found
      ⟨⟨[], [⟨"u1", "R1", 0, "flow", 7, 7⟩, ⟨"u2", "R2", 0, "other", 8, 8⟩]⟩, none⟩ "u1"
      ⟨"u1", "R1", 0, "flow", 7, 7⟩ ⟨"u1", "R1", 1, "flow"⟩ 9
      (by decide) rfl rfl (by decide)).2.1⟩

namespace suspendPlugin

/-- In every reachable state no transaction is open and the primary keys of
both recovery tables are free of repetition. -/
theorem Reachable_keys (s : suspendPlugin) (h : Reachable s) :
    s.staged = none
      ∧ (s.committed.recover_records.map RecoverRecord.RecoverId).Nodup
      ∧ (s.committed.checkpoints.map Checkpoint.Id).Nodup := by
  induction h with
  | empty => simp [suspendPlugin.empty]
  | save s faults now checkpoints record _ ih =>
    by_cases hok : (s.SaveCheckpointAndRecord faults now checkpoints record).1 = Outcome.returned none
    · obtain ⟨-, -, a3, a4, a5, a6⟩ := SaveCheckpointAndRecord_ok s faults now checkpoints record hok
      rw [a6]
      refine ⟨rfl, ?_, ?_⟩
      · simp only [List.map_append, List.map_cons, List.map_nil]
        refine List.Nodup.append ih.2.1 (List.nodup_singleton _) ?_
        rw [List.disjoint_left]
        intro k hk hk2
        obtain ⟨r, hr, rfl⟩ := List.mem_map.mp hk
        simp only [List.mem_singleton] at hk2
        exact a5 r hr hk2
      · simp only [List.map_append, List.map_map]
        refine List.Nodup.append ih.2.2 a3 ?_
        rw [List.disjoint_left]
        intro k hk hk2
        obtain ⟨c, hc, rfl⟩ := List.mem_map.mp hk
        obtain ⟨cp, hcp, hcpk⟩ := List.mem_map.mp hk2
        exact a4 cp hcp c hc hcpk.symm
    · obtain ⟨b1, b2⟩ := SaveCheckpointAndRecord_failed s faults now checkpoints record hok
      rw [b1, b2]
      exact ⟨rfl, ih.2.1, ih.2.2⟩
  | update s fault now record _ ih =>
    cases fault with
    | some e => rw [UpdateRecordStatus_fault]; exact ih
    | none =>
      obtain ⟨-, u2, u3, u4⟩ := UpdateRecordStatus_records s now record
      rw [u2, u3, u4]
      refine ⟨ih.1, ?_, ih.2.2⟩
      have : (s.committed.recover_records.map (fun r =>
          if r.RecoverId = record.RecoverId then
            { r with Status := record.Status, UpdatedAt := now }
          else r)).map RecoverRecord.RecoverId
          = s.committed.recover_records.map RecoverRecord.RecoverId := by
        rw [List.map_map]
        apply List.map_congr_left
        intro r _
        by_cases hk : r.RecoverId = record.RecoverId <;> simp [hk]
      rw [this]
      exact ih.2.1

end suspendPlugin

/-- C9, as stated, fails: the store in which root u1 was suspended twice is
reachable from the empty store by two SaveCheckpointAndRecord calls, and in it
root u1 has two records with status Idle, R1 and R2. -/
theorem C9_two_idle_records_for_one_root :
    Reachable suspendPlugin.suspendedTwice
    ∧ suspendPlugin.suspendedTwice.committed.recover_records.filter
        (fun r => r.RootUid == "u1" && r.Status == flow.RecoverIdle)
      = [⟨"u1", "R1", 0, "flow", 7, 7⟩, ⟨"u1", "R2", 0, "flow", 8, 8⟩] :=
  ⟨Reachable.save _ _ _ _ _ (Reachable.save _ _ _ _ _ Reachable.empty), by decide⟩

/-- C9, amended: in every state reachable from the empty store no transaction
is open and every recover-id has at most one recovery record (every checkpoint
id at most one checkpoint); the number of Idle records of a root is not
limited.  GetLatestRecord(rootUid) returns an Idle record of that root
whenever the root has one, and that record when it is the only one; it
reports not-found when the root has none. -/
theorem C9_reachable_store_invariant (s : suspendPlugin) (h : Reachable s) :
    s.staged = none
    ∧ (s.committed.recover_records.map RecoverRecord.RecoverId).Nodup
    ∧ (s.committed.checkpoints.map Checkpoint.Id).Nodup
    ∧ ∀ rootUid : String,
        ((∃ x ∈ s.committed.recover_records, x.RootUid = rootUid ∧ x.Status = flow.RecoverIdle) →
          (s.GetLatestRecord none rootUid).2 = none
            ∧ (s.GetLatestRecord none rootUid).1 ∈ s.committed.recover_records
            ∧ (s.GetLatestRecord none rootUid).1.RootUid = rootUid
            ∧ (s.GetLatestRecord none rootUid).1.Status = flow.RecoverIdle)
        ∧ ((∀ x ∈ s.committed.recover_records,
              ¬ (x.RootUid = rootUid ∧ x.Status = flow.RecoverIdle)) →
            (s.GetLatestRecord none rootUid).2 = some gorm.Error.ErrRecordNotFound)
        ∧ (∀ r ∈ s.committed.recover_records, r.RootUid = rootUid → r.Status = flow.RecoverIdle →
            (∀ x ∈ s.committed.recover_records, x.RootUid = rootUid →
              x.Status = flow.RecoverIdle → x = r) →
            s.GetLatestRecord none rootUid = (r, none)) := by
  obtain ⟨k1, k2, k3⟩ := suspendPlugin.Reachable_keys s h
  refine ⟨k1, k2, k3, fun rootUid => ?_⟩
  obtain ⟨n1, n2⟩ := suspendPlugin.GetLatestRecord_not_found s rootUid
  have found : (∃ x ∈ s.committed.recover_records, x.RootUid = rootUid ∧ x.Status = flow.RecoverIdle) →
      (s.GetLatestRecord none rootUid).2 = none
        ∧ (s.GetLatestRecord none rootUid).1 ∈ s.committed.recover_records
        ∧ (s.GetLatestRecord none rootUid).1.RootUid = rootUid
        ∧ (s.GetLatestRecord none rootUid).1.Status = flow.RecoverIdle := by
    rintro ⟨x, hx, hc⟩
    have hnone : (s.GetLatestRecord none rootUid).2 = none := by
      rcases n2 with h2 | h2
      · exact h2
      · exact absurd hc (n1.mp h2 x hx)
    exact ⟨hnone, suspendPlugin.GetLatestRecord_found s none rootUid _ (Prod.ext rfl hnone)⟩
  refine ⟨found, fun hno => n1.mpr hno, ?_⟩
  intro r hr h1 h2 hall
  obtain ⟨f1, f2, f3, f4⟩ := found ⟨r, hr, h1, h2⟩
  exact Prod.ext (hall _ f2 f3 f4) f1

/-- C9, amended, at the reachable store with two Idle records of root u1:
recover-ids are not repeated there, and a root without Idle record gets
not-found. -/
theorem C9_reachable_store_invariant_witness :
    Reachable suspendPlugin.suspendedTwice
    ∧ (suspendPlugin.suspendedTwice.committed.recover_records.map RecoverRecord.RecoverId).Nodup
    ∧ (suspendPlugin.suspendedTwice.GetLatestRecord none "u2").2
        = some gorm.Error.ErrRecordNotFound :=
  have hr : Reachable suspendPlugin.suspendedTwice :=
    Reachable.save _ _ _ _ _ (Reachable.save _ _ _ _ _ Reachable.empty)
  ⟨hr, (C9_reachable_store_invariant suspendPlugin.suspendedTwice hr).2.1,
    ((C9_reachable_store_invariant suspendPlugin.suspendedTwice hr).2.2.2 "u2").2.1 (by decide)⟩

namespace suspendPlugin

/-- `SaveCheckpointAndRecord` keeps every stored record and every stored
checkpoint at its place, unchanged. -/
theorem SaveCheckpointAndRecord_getElem (s : suspendPlugin) (faults : Faults) (now : Time)
    (checkpoints : List flow.CheckPoint) (record : flow.RecoverRecord) :
    (∀ (i : Nat) (r : RecoverRecord), s.committed.recover_records[i]? = some r →
      (s.SaveCheckpointAndRecord faults now checkpoints record).2.committed.recover_records[i]?
        = some r)
    ∧ (∀ (i : Nat) (c : Checkpoint), s.committed.checkpoints[i]? = some c →
      (s.SaveCheckpointAndRecord faults now checkpoints record).2.committed.checkpoints[i]?
        = some c) := by
  by_cases hok : (s.SaveCheckpointAndRecord faults now checkpoints record).1 = Outcome.returned none
  · obtain ⟨-, -, -, -, -, a6⟩ := SaveCheckpointAndRecord_ok s faults now checkpoints record hok
    rw [a6]
    constructor
    · intro i r h
      have hi : i < s.committed.recover_records.length := by
        by_contra hc
        rw [List.getElem?_eq_none (not_lt.mp hc)] at h
        cases h
      simpa [List.getElem?_append_left hi] using h
    · intro i c h
      have hi : i < s.committed.checkpoints.length := by
        by_contra hc
        rw [List.getElem?_eq_none (not_lt.mp hc)] at h
        cases h
      simpa [List.getElem?_append_left hi] using h
  · obtain ⟨b1, -⟩ := SaveCheckpointAndRecord_failed s faults now checkpoints record hok
    rw [b1]
    exact ⟨fun _ _ h => h, fun _ _ h => h⟩

/-- What one `UpdateRecordStatus` does to the records, row by row: a record
keeps everything but status and updated-time, a record with another
recover-id keeps those too, and a status that changes becomes the status
carried by the call.  The checkpoints are not touched. -/
theorem UpdateRecordStatus_frame (s : suspendPlugin) (fault : Option gorm.Error) (now : Time)
    (record : flow.RecoverRecord) :
    List.Forall₂ (fun r r' : RecoverRecord =>
        r' = { r with Status := r'.Status, UpdatedAt := r'.UpdatedAt }
        ∧ (r.RecoverId ≠ record.RecoverId → r' = r)
        ∧ (r'.Status = r.Status ∨ r'.Status = record.Status))
      s.committed.recover_records (s.UpdateRecordStatus fault now record).2.committed.recover_records
    ∧ (s.UpdateRecordStatus fault now record).2.committed.checkpoints = s.committed.checkpoints
    ∧ (s.UpdateRecordStatus fault now record).2.staged = s.staged := by
  cases fault with
  | some e =>
    rw [UpdateRecordStatus_fault]
    exact ⟨List.forall₂_same.mpr (fun r _ => ⟨rfl, fun _ => rfl, Or.inl rfl⟩), rfl, rfl⟩
  | none =>
    obtain ⟨-, u2, u3, u4⟩ := UpdateRecordStatus_records s now record
    refine ⟨?_, u3, u4⟩
    rw [u2, List.forall₂_map_right_iff]
    refine List.forall₂_same.mpr (fun r _ => ?_)
    by_cases h : r.RecoverId = record.RecoverId <;> simp [h]

/-- `UpdateRecordStatus` keeps every record at its place with its root uid,
recover-id and name; its status stays, or the record has the recover-id of
the call and gets the status of the call. -/
theorem UpdateRecordStatus_getElem (s : suspendPlugin) (fault : Option gorm.Error) (now : Time)
    (record : flow.RecoverRecord) (i : Nat) (r : RecoverRecord)
    (h : s.committed.recover_records[i]? = some r) :
    ∃ r', (s.UpdateRecordStatus fault now record).2.committed.recover_records[i]? = some r'
      ∧ r'.RecoverId = r.RecoverId ∧ r'.RootUid = r.RootUid ∧ r'.Name = r.Name
      ∧ (r'.Status = r.Status
          ∨ (record.RecoverId = r.RecoverId ∧ r'.Status = record.Status)) := by
  cases fault with
  | some e => rw [UpdateRecordStatus_fault]; exact ⟨r, h, rfl, rfl, rfl, Or.inl rfl⟩
  | none =>
    obtain ⟨-, u2, -, -⟩ := UpdateRecordStatus_records s now record
    rw [u2, List.getElem?_map, h]
    refine ⟨_, rfl, ?_⟩
    by_cases hk : r.RecoverId = record.RecoverId
    · simp [hk]
    · simp [hk]

/-- Along a sequence of calls in which no `UpdateRecordStatus` carries the
recover-id of a record together with status Idle, a record that is not Idle
stays at its place, with its recover-id, root uid and name, and stays not
Idle. -/
theorem run_getElem (cs : List StoreCall) :
    ∀ (s : suspendPlugin) (i : Nat) (r : RecoverRecord),
      s.committed.recover_records[i]? = some r → r.Status ≠ flow.RecoverIdle →
      (∀ c ∈ cs, c.setsIdle r.RecoverId = false) →
      ∃ r', (s.run cs).committed.recover_records[i]? = some r'
        ∧ r'.RecoverId = r.RecoverId ∧ r'.RootUid = r.RootUid ∧ r'.Name = r.Name
        ∧ r'.Status ≠ flow.RecoverIdle := by
  induction cs with
  | nil => intro s i r h hst _; exact ⟨r, h, rfl, rfl, rfl, hst⟩
  | cons c cs ih =>
    intro s i r h hst hcs
    have hrest : ∀ c' ∈ cs, c'.setsIdle r.RecoverId = false :=
      fun c' hc' => hcs c' (List.mem_cons_of_mem _ hc')
    cases c with
    | Save faults now checkpoints record =>
      exact ih _ i r ((SaveCheckpointAndRecord_getElem s faults now checkpoints record).1 i r h)
        hst hrest
    | UpdateStatus fault now record =>
      obtain ⟨r1, h1, k1, k2, k3, k4⟩ := UpdateRecordStatus_getElem s fault now record i r h
      have hc := hcs _ (List.mem_cons_self _ _)
      have hst1 : r1.Status ≠ flow.RecoverIdle := by
        rcases k4 with k4 | ⟨k4, k5⟩
        · rw [k4]; exact hst
        · rw [k5]
          intro hidle
          simp [StoreCall.setsIdle, k4, hidle] at hc
      obtain ⟨r2, h2, m1, m2, m3, m4⟩ := ih _ i r1 h1 hst1 (by rw [k1]; exact hrest)
      exact ⟨r2, h2, m1.trans k1, m2.trans k2, m3.trans k3, m4⟩

/-- A sequence of calls leads from a reachable state to a reachable state. -/
theorem Reachable_run (cs : List StoreCall) :
    ∀ s : suspendPlugin, Reachable s → Reachable (s.run cs) := by
  induction cs with
  | nil => intro s h; exact h
  | cons c cs ih =>
    intro s h
    cases c with
    | Save faults now checkpoints record =>
      exact ih _ (Reachable.save s faults now checkpoints record h)
    | UpdateStatus fault now record =>
      exact ih _ (Reachable.update s fault now record h)

end suspendPlugin

/-- C11, as stated, fails: record R1 of root u1 is saved at time 7 and set to
Consumed at time 8; a later UpdateRecordStatus that carries R1 with status
Idle sets it back to Idle, and GetLatestRecord returns it again.  Each
UpdateRecordStatus also moves the updated-time of the record (7, 8, 9). -/
theorem C11_consumed_record_set_back_to_idle :
    (suspendPlugin.empty.run
        [StoreCall.Save Faults.none 7 [⟨"c1", "u1", "flow", "R1", "", "u1", 0, [1, 2]⟩]
          ⟨"u1", "R1", flow.RecoverIdle, "flow"⟩,
         StoreCall.UpdateStatus none 8 ⟨"u1", "R1", flow.RecoverConsumed, "flow"⟩]
      ).committed.recover_records = [⟨"u1", "R1", flow.RecoverConsumed, "flow", 7, 8⟩]
    ∧ (suspendPlugin.empty.run
        [StoreCall.Save Faults.none 7 [⟨"c1", "u1", "flow", "R1", "", "u1", 0, [1, 2]⟩]
          ⟨"u1", "R1", flow.RecoverIdle, "flow"⟩,
         StoreCall.UpdateStatus none 8 ⟨"u1", "R1", flow.RecoverConsumed, "flow"⟩,
         StoreCall.UpdateStatus none 9 ⟨"u1", "R1", flow.RecoverIdle, "flow"⟩]
      ).committed.recover_records = [⟨"u1", "R1", flow.RecoverIdle, "flow", 7, 9⟩]
    ∧ (suspendPlugin.empty.run
        [StoreCall.Save Faults.none 7 [⟨"c1", "u1", "flow", "R1", "", "u1", 0, [1, 2]⟩]
          ⟨"u1", "R1", flow.RecoverIdle, "flow"⟩,
         StoreCall.UpdateStatus none 8 ⟨"u1", "R1", flow.RecoverConsumed, "flow"⟩,
         StoreCall.UpdateStatus none 9 ⟨"u1", "R1", flow.RecoverIdle, "flow"⟩]
      ).GetLatestRecord none "u1" = (⟨"u1", "R1", flow.RecoverIdle, "flow", 7, 9⟩, none) := by
  decide

/-- C11, amended: in a reachable store, along every sequence of
SaveCheckpointAndRecord and UpdateRecordStatus calls in which no
UpdateRecordStatus carries the recover-id of a record together with status
Idle, a record that is not Idle (Consumed) stays stored at its place with its
recover-id, root uid and name, stays not Idle, and is not what GetLatestRecord
returns.  SaveCheckpointAndRecord leaves every stored record and checkpoint
as it is.  UpdateRecordStatus changes only status and updated-time, only of
records with the given recover-id, and the status it writes is the one it
was given; it leaves the checkpoints as they are. -/
theorem C11_consumed_stays_unless_idle_written (s : suspendPlugin) (cs : List StoreCall)
    (i : Nat) (r : RecoverRecord)
    (hs : Reachable s)
    (hi : s.committed.recover_records[i]? = some r)
    (hst : r.Status ≠ flow.RecoverIdle)
    (hcs : ∀ c ∈ cs, c.setsIdle r.RecoverId = false) :
    (∃ r', (s.run cs).committed.recover_records[i]? = some r'
      ∧ r'.RecoverId = r.RecoverId ∧ r'.RootUid = r.RootUid ∧ r'.Name = r.Name
      ∧ r'.Status ≠ flow.RecoverIdle)
    ∧ (∀ (f : Option gorm.Error) (rootUid : String),
        ((s.run cs).GetLatestRecord f rootUid).2 = none →
        ((s.run cs).GetLatestRecord f rootUid).1.RecoverId ≠ r.RecoverId)
    ∧ (∀ (q : suspendPlugin) (faults : Faults) (now : Time) (checkpoints : List flow.CheckPoint)
        (record : flow.RecoverRecord),
        (∀ (j : Nat) (x : RecoverRecord), q.committed.recover_records[j]? = some x →
          (q.SaveCheckpointAndRecord faults now checkpoints record).2.committed.recover_records[j]?
            = some x)
        ∧ (∀ (j : Nat) (c : Checkpoint), q.committed.checkpoints[j]? = some c →
          (q.SaveCheckpointAndRecord faults now checkpoints record).2.committed.checkpoints[j]?
            = some c))
    ∧ (∀ (q : suspendPlugin) (f : Option gorm.Error) (now : Time) (record : flow.RecoverRecord),
        List.Forall₂ (fun x x' : RecoverRecord =>
            x' = { x with Status := x'.Status, UpdatedAt := x'.UpdatedAt }
            ∧ (x.RecoverId ≠ record.RecoverId → x' = x)
            ∧ (x'.Status = x.Status ∨ x'.Status = record.Status))
          q.committed.recover_records
          (q.UpdateRecordStatus f now record).2.committed.recover_records
        ∧ (q.UpdateRecordStatus f now record).2.committed.checkpoints = q.committed.checkpoints
        ∧ (q.UpdateRecordStatus f now record).2.staged = q.staged) := by
  obtain ⟨r', h1, h2, h3, h4, h5⟩ := suspendPlugin.run_getElem cs s i r hi hst hcs
  refine ⟨⟨r', h1, h2, h3, h4, h5⟩, ?_, suspendPlugin.SaveCheckpointAndRecord_getElem,
    suspendPlugin.UpdateRecordStatus_frame⟩
  intro f rootUid hnone hsame
  obtain ⟨-, hnd, -⟩ := suspendPlugin.Reachable_keys _ (suspendPlugin.Reachable_run cs s hs)
  obtain ⟨g1, -, g3⟩ := suspendPlugin.GetLatestRecord_found (s.run cs) f rootUid
    ((s.run cs).GetLatestRecord f rootUid).1 (Prod.ext rfl hnone)
  have heq := List.inj_on_of_nodup_map hnd g1 (List.getElem?_mem h1) (hsame.trans h2.symm)
  rw [heq] at g3
  exact h5 g3

/-- C11, amended, at a concrete run: record R1 of root u1 was saved and set
to Consumed; root u1 is then suspended again under R2 and R1 is written
Consumed once more.  R1 is still the first record, still not Idle, and
GetLatestRecord for u1 returns another record. -/
theorem C11_consumed_stays_unless_idle_written_witness :
    Reachable (suspendPlugin.empty.run
        [StoreCall.Save Faults.none 7 [⟨"c1", "u1", "flow", "R1", "", "u1", 0, [1, 2]⟩]
          ⟨"u1", "R1", flow.RecoverIdle, "flow"⟩,
         StoreCall.UpdateStatus none 8 ⟨"u1", "R1", flow.RecoverConsumed, "flow"⟩])
    ∧ (suspendPlugin.empty.run
        [StoreCall.Save Faults.none 7 [⟨"c1", "u1", "flow", "R1", "", "u1", 0, [1, 2]⟩]
          ⟨"u1", "R1", flow.RecoverIdle, "flow"⟩,
         StoreCall.UpdateStatus none 8 ⟨"u1", "R1", flow.RecoverConsumed, "flow"⟩]
      ).committed.recover_records[0]? = some ⟨"u1", "R1", 1, "flow", 7, 8⟩
    ∧ ∃ r', ((suspendPlugin.empty.run
        [StoreCall.Save Faults.none 7 [⟨"c1", "u1", "flow", "R1", "", "u1", 0, [1, 2]⟩]
          ⟨"u1", "R1", flow.RecoverIdle, "flow"⟩,
         StoreCall.UpdateStatus none 8 ⟨"u1", "R1", flow.RecoverConsumed, "flow"⟩]).run
        [StoreCall.Save Faults.none 9 [⟨"c2", "u1", "flow", "R2", "", "u1", 0, [3]⟩]
          ⟨"u1", "R2", flow.RecoverIdle, "flow"⟩,
         StoreCall.UpdateStatus none 10 ⟨"u1", "R1", flow.RecoverConsumed, "flow"⟩]
      ).committed.recover_records[0]? = some r'
      ∧ r'.RecoverId = "R1" ∧ r'.RootUid = "u1" ∧ r'.Name = "flow"
      ∧ r'.Status ≠ flow.RecoverIdle :=
  have hr : Reachable (suspendPlugin.empty.run
      [StoreCall.Save Faults.none 7 [⟨"c1", "u1", "flow", "R1", "", "u1", 0, [1, 2]⟩]
        ⟨"u1", "R1", flow.RecoverIdle, "flow"⟩,
       StoreCall.UpdateStatus none 8 ⟨"u1", "R1", flow.RecoverConsumed, "flow"⟩]) :=
    suspendPlugin.Reachable_run _ _ Reachable.empty
  ⟨hr, by decide,
    (C11_consumed_stays_unless_idle_written _
      [StoreCall.Save Faults.none 9 [⟨"c2", "u1", "flow", "R2", "", "u1", 0, [3]⟩]
        ⟨"u1", "R2", flow.RecoverIdle, "flow"⟩,
       StoreCall.UpdateStatus none 10 ⟨"u1", "R1", flow.RecoverConsumed, "flow"⟩]
      0 ⟨"u1", "R1", 1, "flow", 7, 8⟩ hr (by decide) (by decide) (by decide)).1⟩
